import Mathlib

/-!
# KInterruptController (arm64 GIC driver): register-level model

Shallow embedding of
`libraries/libmesosphere/source/arch/arm64/kern_k_interrupt_controller.cpp`.

* The two memory-mapped register blocks are records of register values.  Arrays
  of registers are functions from the index to the 32-bit word stored there.
* `ipriorityr` and `itargetsr` are unions of a byte view and a word view of the
  same storage.  The word is the stored datum; byte `n` is byte `n % 4`
  (little endian, as on AArch64) of word `n / 4`.
* `isenabler`/`icenabler` (and the pending / active pairs) are two write views
  of one bitmap: writing 1-bits to the set register sets those bits, writing
  1-bits to the clear register clears them, reading returns the bitmap.
* Every register access of the driver is appended to `Machine.trace`, in program
  order.  Calls to the two collaborators whose bodies live in the header
  (`SetGicMask`, `SetPriorityLevel`) are recorded as single trace entries.
-/

namespace ams.kern.arch.arm64

/-! ## Definitions -/

/-! ### Loops, bytes, arrays -/

/-- The loop `for (size_t i = 0; i < n; i++) body(i)` as a state transformer:
the bodies run for `i = 0, 1, ..., n - 1`, in that order. -/
def forLoop {σ : Type} (n : Nat) (body : Nat → σ → σ) (s : σ) : σ :=
  match n with
  | 0 => s
  | k + 1 => body k (forLoop k body s)

/-- Concatenation of the blocks `f 0, f 1, ..., f (n - 1)`, in that order. -/
def emit {α : Type} (n : Nat) (f : Nat → List α) : List α :=
  match n with
  | 0 => []
  | k + 1 => emit k f ++ f k

/-- Byte `k` (little endian) of the word `w`. -/
def getByte (w k : Nat) : Nat := (w / 256 ^ k) % 256

/-- The word `w` with byte `k` replaced by the `u8` value `v`. -/
def setByte (w k v : Nat) : Nat := w - getByte w k * 256 ^ k + (v % 256) * 256 ^ k

/-- Pointwise update of a register array. -/
def upd (f : Nat → Nat) (i v : Nat) : Nat → Nat := fun j => if j = i then v else f j

/-! ### Register blocks and the access trace -/

/-- Modelled from the spec: the header constant `NumLocalInterrupts` (16
software-generated plus 16 core-private peripheral lines). -/
def NumLocalInterrupts : Nat := 32

/-- The distributor register block, restricted to the fields the driver uses. -/
structure GicDistributor where
  ctlr : Nat
  typer : Nat
  igroupr : Nat → Nat
  /-- The enable bitmap, read through `isenabler`, set through `isenabler`,
  cleared through `icenabler`. -/
  isenabler : Nat → Nat
  /-- The pending bitmap, cleared through `icpendr`. -/
  ispendr : Nat → Nat
  /-- The active bitmap, cleared through `icactiver`. -/
  isactiver : Nat → Nat
  /-- Words of the priority union `ipriorityr.words`. -/
  ipriorityr : Nat → Nat
  /-- Words of the target-mask union `itargetsr.words`. -/
  itargetsr : Nat → Nat
  icfgr : Nat → Nat

/-- The per-core CPU interface register block. -/
structure GicCpuInterface where
  ctlr : Nat
  pmr : Nat
  bpr : Nat

/-- Names of the registers the driver reads or writes. -/
inductive Reg where
  | gicd_ctlr
  | gicd_typer
  | igroupr (i : Nat)
  | isenabler (i : Nat)
  | icenabler (i : Nat)
  | icpendr (i : Nat)
  | icactiver (i : Nat)
  | ipriorityr_bytes (i : Nat)
  | ipriorityr_words (i : Nat)
  | itargetsr_bytes (i : Nat)
  | itargetsr_words (i : Nat)
  | icfgr (i : Nat)
  | gicc_ctlr
  | gicc_pmr
  | gicc_bpr
  deriving DecidableEq, Repr

/-- The two named operating levels passed to `SetPriorityLevel`. -/
inductive PriorityLevel where
  | PriorityLevel_High
  | PriorityLevel_Low
  deriving DecidableEq, Repr

/-- One entry of the ordered access trace. -/
inductive Access where
  | read (r : Reg)
  | write (r : Reg) (v : Nat)
  | SetGicMask (core_id : Int)
  | SetPriorityLevel (level : PriorityLevel)
  deriving DecidableEq, Repr

/-- The driver object together with the hardware it drives.  `gicd` and `gicc`
are the two pointer members (an address, `0` is `nullptr`); `gicd_regs` and
`gicc_regs` are the register blocks. -/
structure Machine where
  gicd : Nat
  gicc : Nat
  gicd_regs : GicDistributor
  gicc_regs : GicCpuInterface
  trace : List Access

/-- Byte `n` of `ipriorityr.bytes`. -/
def GicDistributor.ipriorityr_bytes (d : GicDistributor) (n : Nat) : Nat :=
  getByte (d.ipriorityr (n / 4)) (n % 4)

/-- Byte `n` of `itargetsr.bytes`. -/
def GicDistributor.itargetsr_bytes (d : GicDistributor) (n : Nat) : Nat :=
  getByte (d.itargetsr (n / 4)) (n % 4)

/-- Effect of storing `v` to a distributor register. -/
def GicDistributor.store (d : GicDistributor) : Reg → Nat → GicDistributor
  | .gicd_ctlr, v => { d with ctlr := v }
  | .gicd_typer, _ => d
  | .igroupr i, v => { d with igroupr := upd d.igroupr i v }
  | .isenabler i, v => { d with isenabler := upd d.isenabler i (d.isenabler i ||| v) }
  | .icenabler i, v =>
      { d with isenabler := upd d.isenabler i (d.isenabler i &&& (0xFFFFFFFF ^^^ v)) }
  | .icpendr i, v =>
      { d with ispendr := upd d.ispendr i (d.ispendr i &&& (0xFFFFFFFF ^^^ v)) }
  | .icactiver i, v =>
      { d with isactiver := upd d.isactiver i (d.isactiver i &&& (0xFFFFFFFF ^^^ v)) }
  | .ipriorityr_bytes i, v =>
      { d with ipriorityr := upd d.ipriorityr (i / 4) (setByte (d.ipriorityr (i / 4)) (i % 4) v) }
  | .ipriorityr_words i, v => { d with ipriorityr := upd d.ipriorityr i v }
  | .itargetsr_bytes i, v =>
      { d with itargetsr := upd d.itargetsr (i / 4) (setByte (d.itargetsr (i / 4)) (i % 4) v) }
  | .itargetsr_words i, v => { d with itargetsr := upd d.itargetsr i v }
  | .icfgr i, v => { d with icfgr := upd d.icfgr i v }
  | .gicc_ctlr, _ => d
  | .gicc_pmr, _ => d
  | .gicc_bpr, _ => d

/-- Effect of storing `v` to a CPU interface register. -/
def GicCpuInterface.store (c : GicCpuInterface) : Reg → Nat → GicCpuInterface
  | .gicc_ctlr, v => { c with ctlr := v }
  | .gicc_pmr, v => { c with pmr := v }
  | .gicc_bpr, v => { c with bpr := v }
  | _, _ => c

/-- Value returned by a load from a register. -/
def Machine.load (m : Machine) : Reg → Nat
  | .gicd_ctlr => m.gicd_regs.ctlr
  | .gicd_typer => m.gicd_regs.typer
  | .igroupr i => m.gicd_regs.igroupr i
  | .isenabler i => m.gicd_regs.isenabler i
  | .icenabler i => m.gicd_regs.isenabler i
  | .icpendr i => m.gicd_regs.ispendr i
  | .icactiver i => m.gicd_regs.isactiver i
  | .ipriorityr_bytes i => m.gicd_regs.ipriorityr_bytes i
  | .ipriorityr_words i => m.gicd_regs.ipriorityr i
  | .itargetsr_bytes i => m.gicd_regs.itargetsr_bytes i
  | .itargetsr_words i => m.gicd_regs.itargetsr i
  | .icfgr i => m.gicd_regs.icfgr i
  | .gicc_ctlr => m.gicc_regs.ctlr
  | .gicc_pmr => m.gicc_regs.pmr
  | .gicc_bpr => m.gicc_regs.bpr

/-- A volatile store `reg = v`: the register file changes and the access is
appended to the trace. -/
def Machine.write (r : Reg) (v : Nat) (m : Machine) : Machine :=
  { m with
    gicd_regs := m.gicd_regs.store r v
    gicc_regs := m.gicc_regs.store r v
    trace := m.trace ++ [Access.write r v] }

/-- A volatile load of `reg`: the value and the machine with the access
appended to the trace. -/
def Machine.read (r : Reg) (m : Machine) : Nat × Machine :=
  (m.load r, { m with trace := m.trace ++ [Access.read r] })

/-! ### Per-line state -/

/-- Bit `n % 32` of word `n / 32` of a bitmap register array. -/
def lineBit (words : Nat → Nat) (n : Nat) : Bool := (words (n / 32)).testBit (n % 32)

/-- Whether line `n` is enabled. -/
def GicDistributor.enabled (d : GicDistributor) (n : Nat) : Bool := lineBit d.isenabler n

/-- Whether line `n` is pending. -/
def GicDistributor.pending (d : GicDistributor) (n : Nat) : Bool := lineBit d.ispendr n

/-- Whether line `n` is active. -/
def GicDistributor.active (d : GicDistributor) (n : Nat) : Bool := lineBit d.isactiver n

/-- The group bit of line `n`. -/
def GicDistributor.group (d : GicDistributor) (n : Nat) : Bool := lineBit d.igroupr n

/-- The 2-bit edge/level field of line `n` (16 fields per `icfgr` word). -/
def GicDistributor.config (d : GicDistributor) (n : Nat) : Nat :=
  (d.icfgr (n / 16) / 4 ^ (n % 16)) % 4

/-! ### Collaborators declared outside the source file -/

/-- Modelled from the spec: the collaborators `SetGicMask` ("apply this core's
group/affinity mask", an opaque external operation) and `SetPriorityLevel`
(sets a named operating level), and the two addresses returned by
`KMemoryLayout`.  Their bodies are not part of the source file, so their effect
on the two register blocks is a parameter. -/
structure Collaborators where
  GetInterruptDistributorAddress : Nat
  GetInterruptCpuInterfaceAddress : Nat
  SetGicMask : Int → GicDistributor × GicCpuInterface → GicDistributor × GicCpuInterface
  SetPriorityLevel :
    PriorityLevel → GicDistributor × GicCpuInterface → GicDistributor × GicCpuInterface

/-- The call `SetGicMask(core_id)`. -/
def Machine.callSetGicMask (col : Collaborators) (core_id : Int) (m : Machine) : Machine :=
  { m with
    gicd_regs := (col.SetGicMask core_id (m.gicd_regs, m.gicc_regs)).1
    gicc_regs := (col.SetGicMask core_id (m.gicd_regs, m.gicc_regs)).2
    trace := m.trace ++ [Access.SetGicMask core_id] }

/-- The call `SetPriorityLevel(level)`. -/
def Machine.callSetPriorityLevel (col : Collaborators) (level : PriorityLevel) (m : Machine) :
    Machine :=
  { m with
    gicd_regs := (col.SetPriorityLevel level (m.gicd_regs, m.gicc_regs)).1
    gicc_regs := (col.SetPriorityLevel level (m.gicd_regs, m.gicc_regs)).2
    trace := m.trace ++ [Access.SetPriorityLevel level] }

/-! ### Line reset, bring-up, teardown -/

/-- The line count `ITLines` of `SetupInterruptLines` together with the machine
after evaluating it: `typer` is read only when `core_id == 0`. -/
def ITLines (core_id : Int) (m : Machine) : Nat × Machine :=
  if core_id = 0 then
    (32 * (((m.read Reg.gicd_typer).1 &&& 0x1F) + 1), (m.read Reg.gicd_typer).2)
  else
    (NumLocalInterrupts, m)

/-- `KInterruptController::SetupInterruptLines`. -/
def SetupInterruptLines (core_id : Int) (m : Machine) : Machine :=
  let n := (ITLines core_id m).1
  let m := (ITLines core_id m).2
  let m := forLoop (n / 32) (fun i m =>
    let m := m.write (Reg.icenabler i) 0xFFFFFFFF
    let m := m.write (Reg.icpendr i) 0xFFFFFFFF
    let m := m.write (Reg.icactiver i) 0xFFFFFFFF
    m.write (Reg.igroupr i) 0) m
  let m := forLoop n (fun i m =>
    let m := m.write (Reg.ipriorityr_bytes i) 0xFF
    m.write (Reg.itargetsr_bytes i) 0x00) m
  forLoop (n / 16) (fun i m => m.write (Reg.icfgr i) 0x00000000) m

/-- `KInterruptController::Initialize`. -/
def Initialize (col : Collaborators) (core_id : Int) (m : Machine) : Machine :=
  let m := { m with gicd := col.GetInterruptDistributorAddress }
  let m := { m with gicc := col.GetInterruptCpuInterfaceAddress }
  let m := m.write Reg.gicc_ctlr 0
  let m := if core_id = 0 then m.write Reg.gicd_ctlr 0 else m
  let m := m.write Reg.gicc_pmr 0
  let m := m.write Reg.gicc_bpr 7
  let m := SetupInterruptLines core_id m
  let m := if core_id = 0 then m.write Reg.gicd_ctlr 1 else m
  let m := m.write Reg.gicc_ctlr 1
  let m := m.callSetGicMask col core_id
  m.callSetPriorityLevel col PriorityLevel.PriorityLevel_Low

/-- `KInterruptController::Finalize`. -/
def Finalize (col : Collaborators) (core_id : Int) (m : Machine) : Machine :=
  let m := if core_id = 0 then m.write Reg.gicd_ctlr 0 else m
  let m := m.write Reg.gicc_ctlr 0
  let m := m.callSetPriorityLevel col PriorityLevel.PriorityLevel_High
  let m := SetupInterruptLines core_id m
  let m := { m with gicd := 0 }
  { m with gicc := 0 }

/-! ### Snapshots, save and restore -/

/-- Lengths of the four arrays of a snapshot structure. -/
structure ArraySizes where
  isenabler : Nat
  ipriorityr : Nat
  itargetsr : Nat
  icfgr : Nat
  deriving DecidableEq, Repr

/-- The four saved arrays of a snapshot: entry `i` of each array. -/
structure SavedState where
  isenabler : Nat → Nat
  ipriorityr : Nat → Nat
  itargetsr : Nat → Nat
  icfgr : Nat → Nat

/-- Modelled from the spec: the header struct `LocalState`, holding the enable
bits, priorities, target masks and edge/level configs "for exactly the local ID
range". -/
abbrev LocalState := SavedState

/-- Modelled from the spec: the header struct `GlobalState`, "the same four
fields but for the global ID range". -/
abbrev GlobalState := SavedState

/-- Modelled from the spec: the array lengths of `LocalState`, which cover
exactly `NumLocalInterrupts` lines (32 lines per enable word, 4 per priority
and target word, 16 per config word). -/
def LocalState.size : ArraySizes :=
  { isenabler := NumLocalInterrupts / 32
    ipriorityr := NumLocalInterrupts / 4
    itargetsr := NumLocalInterrupts / 4
    icfgr := NumLocalInterrupts / 16 }

/-- `KInterruptController::SaveCoreLocal`. -/
def SaveCoreLocal (state : LocalState) (m : Machine) : LocalState × Machine :=
  -- Save isenabler.
  let s := forLoop LocalState.size.isenabler (fun i (s : LocalState × Machine) =>
    let Offset := 0
    let r := s.2.read (Reg.isenabler (i + Offset))
    ({ s.1 with isenabler := upd s.1.isenabler i r.1 },
      r.2.write (Reg.isenabler (i + Offset)) 0xFFFFFFFF)) (state, m)
  -- Save ipriorityr.
  let s := forLoop LocalState.size.ipriorityr (fun i (s : LocalState × Machine) =>
    let Offset := 0
    let r := s.2.read (Reg.ipriorityr_words (i + Offset))
    ({ s.1 with ipriorityr := upd s.1.ipriorityr i r.1 },
      r.2.write (Reg.ipriorityr_words (i + Offset)) 0xFFFFFFFF)) s
  -- Save itargetsr.
  let s := forLoop LocalState.size.itargetsr (fun i (s : LocalState × Machine) =>
    let Offset := 0
    let r := s.2.read (Reg.itargetsr_words (i + Offset))
    ({ s.1 with itargetsr := upd s.1.itargetsr i r.1 }, r.2)) s
  -- Save icfgr.
  forLoop LocalState.size.icfgr (fun i (s : LocalState × Machine) =>
    let Offset := 0
    let r := s.2.read (Reg.icfgr (i + Offset))
    ({ s.1 with icfgr := upd s.1.icfgr i r.1 }, r.2)) s

/-- `KInterruptController::SaveGlobal`; `gsz` are the array lengths of
`GlobalState`. -/
def SaveGlobal (gsz : ArraySizes) (state : GlobalState) (m : Machine) : GlobalState × Machine :=
  -- Save isenabler.
  let s := forLoop gsz.isenabler (fun i (s : GlobalState × Machine) =>
    let Offset := LocalState.size.isenabler
    let r := s.2.read (Reg.isenabler (i + Offset))
    ({ s.1 with isenabler := upd s.1.isenabler i r.1 },
      r.2.write (Reg.isenabler (i + Offset)) 0xFFFFFFFF)) (state, m)
  -- Save ipriorityr.
  let s := forLoop gsz.ipriorityr (fun i (s : GlobalState × Machine) =>
    let Offset := LocalState.size.ipriorityr
    let r := s.2.read (Reg.ipriorityr_words (i + Offset))
    ({ s.1 with ipriorityr := upd s.1.ipriorityr i r.1 },
      r.2.write (Reg.ipriorityr_words (i + Offset)) 0xFFFFFFFF)) s
  -- Save itargetsr.
  let s := forLoop gsz.itargetsr (fun i (s : GlobalState × Machine) =>
    let Offset := LocalState.size.itargetsr
    let r := s.2.read (Reg.itargetsr_words (i + Offset))
    ({ s.1 with itargetsr := upd s.1.itargetsr i r.1 }, r.2)) s
  -- Save icfgr.
  forLoop gsz.icfgr (fun i (s : GlobalState × Machine) =>
    let Offset := LocalState.size.icfgr
    let r := s.2.read (Reg.icfgr (i + Offset))
    ({ s.1 with icfgr := upd s.1.icfgr i r.1 }, r.2)) s

/-- `KInterruptController::RestoreCoreLocal`. -/
def RestoreCoreLocal (state : LocalState) (m : Machine) : Machine :=
  -- Restore ipriorityr.
  let m := forLoop LocalState.size.ipriorityr (fun i m =>
    let Offset := 0
    m.write (Reg.ipriorityr_words (i + Offset)) (state.ipriorityr i)) m
  -- Restore itargetsr.
  let m := forLoop LocalState.size.itargetsr (fun i m =>
    let Offset := 0
    m.write (Reg.itargetsr_words (i + Offset)) (state.itargetsr i)) m
  -- Restore icfgr.
  let m := forLoop LocalState.size.icfgr (fun i m =>
    let Offset := 0
    m.write (Reg.icfgr (i + Offset)) (state.icfgr i)) m
  -- Restore isenabler.
  forLoop LocalState.size.isenabler (fun i m =>
    let Offset := 0
    let m := m.write (Reg.icenabler (i + Offset)) 0xFFFFFFFF
    m.write (Reg.isenabler (i + Offset)) (state.isenabler i)) m

/-- `KInterruptController::RestoreGlobal`; `gsz` are the array lengths of
`GlobalState`. -/
def RestoreGlobal (gsz : ArraySizes) (state : GlobalState) (m : Machine) : Machine :=
  -- Restore ipriorityr.
  let m := forLoop gsz.ipriorityr (fun i m =>
    let Offset := LocalState.size.ipriorityr
    m.write (Reg.ipriorityr_words (i + Offset)) (state.ipriorityr i)) m
  -- Restore itargetsr.
  let m := forLoop gsz.itargetsr (fun i m =>
    let Offset := LocalState.size.itargetsr
    m.write (Reg.itargetsr_words (i + Offset)) (state.itargetsr i)) m
  -- Restore icfgr.
  let m := forLoop gsz.icfgr (fun i m =>
    let Offset := LocalState.size.icfgr
    m.write (Reg.icfgr (i + Offset)) (state.icfgr i)) m
  -- Restore isenabler.
  forLoop gsz.isenabler (fun i m =>
    let Offset := LocalState.size.isenabler
    let m := m.write (Reg.icenabler (i + Offset)) 0xFFFFFFFF
    m.write (Reg.isenabler (i + Offset)) (state.isenabler i)) m

/-! ### The loops of the driver, with offset and length as arguments -/

/-- The enable-word loop of the save functions, with offset `off` and length `n`. -/
def saveEnableLoop (off n : Nat) (s : SavedState × Machine) : SavedState × Machine :=
  forLoop n (fun i (s : SavedState × Machine) =>
    let r := s.2.read (Reg.isenabler (i + off))
    ({ s.1 with isenabler := upd s.1.isenabler i r.1 },
      r.2.write (Reg.isenabler (i + off)) 0xFFFFFFFF)) s

/-- The priority-word loop of the save functions, with offset `off` and length `n`. -/
def savePriorityLoop (off n : Nat) (s : SavedState × Machine) : SavedState × Machine :=
  forLoop n (fun i (s : SavedState × Machine) =>
    let r := s.2.read (Reg.ipriorityr_words (i + off))
    ({ s.1 with ipriorityr := upd s.1.ipriorityr i r.1 },
      r.2.write (Reg.ipriorityr_words (i + off)) 0xFFFFFFFF)) s

/-- The target-word loop of the save functions, with offset `off` and length `n`. -/
def saveTargetsLoop (off n : Nat) (s : SavedState × Machine) : SavedState × Machine :=
  forLoop n (fun i (s : SavedState × Machine) =>
    let r := s.2.read (Reg.itargetsr_words (i + off))
    ({ s.1 with itargetsr := upd s.1.itargetsr i r.1 }, r.2)) s

/-- The config-word loop of the save functions, with offset `off` and length `n`. -/
def saveConfigLoop (off n : Nat) (s : SavedState × Machine) : SavedState × Machine :=
  forLoop n (fun i (s : SavedState × Machine) =>
    let r := s.2.read (Reg.icfgr (i + off))
    ({ s.1 with icfgr := upd s.1.icfgr i r.1 }, r.2)) s

/-- The priority-word loop of the restore functions, with offset `off` and length `n`. -/
def restorePriorityLoop (state : SavedState) (off n : Nat) (m : Machine) : Machine :=
  forLoop n (fun i m => m.write (Reg.ipriorityr_words (i + off)) (state.ipriorityr i)) m

/-- The target-word loop of the restore functions, with offset `off` and length `n`. -/
def restoreTargetsLoop (state : SavedState) (off n : Nat) (m : Machine) : Machine :=
  forLoop n (fun i m => m.write (Reg.itargetsr_words (i + off)) (state.itargetsr i)) m

/-- The config-word loop of the restore functions, with offset `off` and length `n`. -/
def restoreConfigLoop (state : SavedState) (off n : Nat) (m : Machine) : Machine :=
  forLoop n (fun i m => m.write (Reg.icfgr (i + off)) (state.icfgr i)) m

/-- The enable-word loop of the restore functions, with offset `off` and length `n`. -/
def restoreEnableLoop (state : SavedState) (off n : Nat) (m : Machine) : Machine :=
  forLoop n (fun i m =>
    let m := m.write (Reg.icenabler (i + off)) 0xFFFFFFFF
    m.write (Reg.isenabler (i + off)) (state.isenabler i)) m

/-- The word `w` with its bytes `0 .. k - 1` replaced by `v`. -/
def fillBytes (w k v : Nat) : Nat :=
  match k with
  | 0 => w
  | j + 1 => setByte (fillBytes w j v) j v

/-- The first loop of `SetupInterruptLines`, over `n` words. -/
def clearLoop (n : Nat) (m : Machine) : Machine :=
  forLoop n (fun i m =>
    let m := m.write (Reg.icenabler i) 0xFFFFFFFF
    let m := m.write (Reg.icpendr i) 0xFFFFFFFF
    let m := m.write (Reg.icactiver i) 0xFFFFFFFF
    m.write (Reg.igroupr i) 0) m

/-- The second loop of `SetupInterruptLines`, over `n` lines. -/
def byteLoop (n : Nat) (m : Machine) : Machine :=
  forLoop n (fun i m =>
    let m := m.write (Reg.ipriorityr_bytes i) 0xFF
    m.write (Reg.itargetsr_bytes i) 0x00) m

/-- The third loop of `SetupInterruptLines`, over `n` words. -/
def configLoop (n : Nat) (m : Machine) : Machine :=
  forLoop n (fun i m => m.write (Reg.icfgr i) 0x00000000) m

/-! ### Closed forms used in the statements -/

/-- The number of lines `SetupInterruptLines` resets, as a function of the
`typer` register. -/
def lineCount (core_id : Int) (typer : Nat) : Nat :=
  if core_id = 0 then 32 * ((typer &&& 0x1F) + 1) else NumLocalInterrupts

/-- The distributor after resetting `n` lines. -/
def resetRegs (n : Nat) (d : GicDistributor) : GicDistributor :=
  { d with
    igroupr := fun j => if j < n / 32 then 0 else d.igroupr j
    isenabler := fun j => if j < n / 32 then 0 else d.isenabler j
    ispendr := fun j => if j < n / 32 then 0 else d.ispendr j
    isactiver := fun j => if j < n / 32 then 0 else d.isactiver j
    ipriorityr := fun j => fillBytes (d.ipriorityr j) (min 4 (n - 4 * j)) 0xFF
    itargetsr := fun j => fillBytes (d.itargetsr j) (min 4 (n - 4 * j)) 0x00
    icfgr := fun j => if j < n / 16 then 0 else d.icfgr j }

/-- The accesses of the three loops of `SetupInterruptLines` for `n` lines. -/
def resetWrites (n : Nat) : List Access :=
  emit (n / 32) (fun i =>
      [Access.write (Reg.icenabler i) 0xFFFFFFFF,
       Access.write (Reg.icpendr i) 0xFFFFFFFF,
       Access.write (Reg.icactiver i) 0xFFFFFFFF,
       Access.write (Reg.igroupr i) 0]) ++
    emit n (fun i =>
      [Access.write (Reg.ipriorityr_bytes i) 0xFF,
       Access.write (Reg.itargetsr_bytes i) 0x00]) ++
    emit (n / 16) (fun i => [Access.write (Reg.icfgr i) 0])

/-- All accesses of `SetupInterruptLines`: the read of `typer` on core 0, then
the three loops. -/
def resetAccesses (core_id : Int) (typer : Nat) : List Access :=
  (if core_id = 0 then [Access.read Reg.gicd_typer] else []) ++
    resetWrites (lineCount core_id typer)

/-- The offsets used by the core-local functions: `Offset = 0` for every array. -/
def noOffset : ArraySizes := { isenabler := 0, ipriorityr := 0, itargetsr := 0, icfgr := 0 }

/-- The snapshot written by a save with offsets `off` and lengths `sz`, from the
distributor `d`; entries past the lengths keep the caller's values `st`. -/
def savedSnapshot (off sz : ArraySizes) (st : SavedState) (d : GicDistributor) : SavedState :=
  { isenabler := fun i => if i < sz.isenabler then d.isenabler (i + off.isenabler)
                          else st.isenabler i
    ipriorityr := fun i => if i < sz.ipriorityr then d.ipriorityr (i + off.ipriorityr)
                           else st.ipriorityr i
    itargetsr := fun i => if i < sz.itargetsr then d.itargetsr (i + off.itargetsr)
                          else st.itargetsr i
    icfgr := fun i => if i < sz.icfgr then d.icfgr (i + off.icfgr) else st.icfgr i }

/-- The distributor after a save with offsets `off` and lengths `sz`. -/
def regsAfterSave (off sz : ArraySizes) (d : GicDistributor) : GicDistributor :=
  { d with
    isenabler := fun j => if off.isenabler ≤ j ∧ j < off.isenabler + sz.isenabler
                          then d.isenabler j ||| 0xFFFFFFFF else d.isenabler j
    ipriorityr := fun j => if off.ipriorityr ≤ j ∧ j < off.ipriorityr + sz.ipriorityr
                           then 0xFFFFFFFF else d.ipriorityr j }

/-- The accesses of a save with offsets `off` and lengths `sz`, in order. -/
def saveAccesses (off sz : ArraySizes) : List Access :=
  emit sz.isenabler (fun i =>
      [Access.read (Reg.isenabler (i + off.isenabler)),
       Access.write (Reg.isenabler (i + off.isenabler)) 0xFFFFFFFF]) ++
    emit sz.ipriorityr (fun i =>
      [Access.read (Reg.ipriorityr_words (i + off.ipriorityr)),
       Access.write (Reg.ipriorityr_words (i + off.ipriorityr)) 0xFFFFFFFF]) ++
    emit sz.itargetsr (fun i => [Access.read (Reg.itargetsr_words (i + off.itargetsr))]) ++
    emit sz.icfgr (fun i => [Access.read (Reg.icfgr (i + off.icfgr))])

/-- The distributor after a restore of `st` with offsets `off` and lengths `sz`. -/
def regsAfterRestore (off sz : ArraySizes) (st : SavedState) (d : GicDistributor) :
    GicDistributor :=
  { d with
    isenabler := fun j => if off.isenabler ≤ j ∧ j < off.isenabler + sz.isenabler
                          then st.isenabler (j - off.isenabler) else d.isenabler j
    ipriorityr := fun j => if off.ipriorityr ≤ j ∧ j < off.ipriorityr + sz.ipriorityr
                           then st.ipriorityr (j - off.ipriorityr) else d.ipriorityr j
    itargetsr := fun j => if off.itargetsr ≤ j ∧ j < off.itargetsr + sz.itargetsr
                          then st.itargetsr (j - off.itargetsr) else d.itargetsr j
    icfgr := fun j => if off.icfgr ≤ j ∧ j < off.icfgr + sz.icfgr
                      then st.icfgr (j - off.icfgr) else d.icfgr j }

/-- The priority-word writes of a restore. -/
def restorePriorityWrites (off sz : ArraySizes) (st : SavedState) : List Access :=
  emit sz.ipriorityr (fun i =>
    [Access.write (Reg.ipriorityr_words (i + off.ipriorityr)) (st.ipriorityr i)])

/-- The target-word writes of a restore. -/
def restoreTargetsWrites (off sz : ArraySizes) (st : SavedState) : List Access :=
  emit sz.itargetsr (fun i =>
    [Access.write (Reg.itargetsr_words (i + off.itargetsr)) (st.itargetsr i)])

/-- The config-word writes of a restore. -/
def restoreConfigWrites (off sz : ArraySizes) (st : SavedState) : List Access :=
  emit sz.icfgr (fun i => [Access.write (Reg.icfgr (i + off.icfgr)) (st.icfgr i)])

/-- The enable writes of a restore: for each word the clear-enable write, then
the set-enable write. -/
def restoreEnableWrites (off sz : ArraySizes) (st : SavedState) : List Access :=
  emit sz.isenabler (fun i =>
    [Access.write (Reg.icenabler (i + off.isenabler)) 0xFFFFFFFF,
     Access.write (Reg.isenabler (i + off.isenabler)) (st.isenabler i)])

/-- The accesses of a restore of `st` with offsets `off` and lengths `sz`, in order. -/
def restoreAccesses (off sz : ArraySizes) (st : SavedState) : List Access :=
  restorePriorityWrites off sz st ++ restoreTargetsWrites off sz st ++
    restoreConfigWrites off sz st ++ restoreEnableWrites off sz st

/-! ### Lines covered by a register, phases of a restore -/

/-- The interrupt lines whose state a distributor register entry holds: the
first line and the number of lines; `none` for registers that are not per-line. -/
def Reg.lines : Reg → Option (Nat × Nat)
  | .igroupr i => some (32 * i, 32)
  | .isenabler i => some (32 * i, 32)
  | .icenabler i => some (32 * i, 32)
  | .icpendr i => some (32 * i, 32)
  | .icactiver i => some (32 * i, 32)
  | .ipriorityr_bytes i => some (i, 1)
  | .ipriorityr_words i => some (4 * i, 4)
  | .itargetsr_bytes i => some (i, 1)
  | .itargetsr_words i => some (4 * i, 4)
  | .icfgr i => some (16 * i, 16)
  | _ => none

/-- The register entry holds only lines below `n`. -/
def Reg.belowLine (n : Nat) (r : Reg) : Bool :=
  match r.lines with
  | some (first, count) => decide (first + count ≤ n)
  | none => false

/-- The register entry holds only lines from `n` on. -/
def Reg.fromLine (n : Nat) (r : Reg) : Bool :=
  match r.lines with
  | some (first, _) => decide (n ≤ first)
  | none => false

/-- The access is a read or a write of a register satisfying `p`. -/
def Access.onReg (p : Reg → Bool) : Access → Bool
  | .read r => p r
  | .write r _ => p r
  | _ => false

/-- Phase of a restore an access belongs to: 0 priority write, 1 target-mask
write, 2 config write, 3 clear-enable or set-enable write, 4 anything else. -/
def restorePhase : Access → Nat
  | .write (.ipriorityr_words _) _ => 0
  | .write (.itargetsr_words _) _ => 1
  | .write (.icfgr _) _ => 2
  | .write (.icenabler _) _ => 3
  | .write (.isenabler _) _ => 3
  | _ => 4

/-! ### Driver states and collaborator contracts -/

/-- The register belongs to the distributor block. -/
def Reg.isDistributor : Reg → Bool
  | .gicc_ctlr => false
  | .gicc_pmr => false
  | .gicc_bpr => false
  | _ => true

/-- The driver is in its `Active` state: both register-block pointers are set. -/
def Machine.Active (m : Machine) : Prop := m.gicd ≠ 0 ∧ m.gicc ≠ 0

instance (m : Machine) : Decidable m.Active :=
  inferInstanceAs (Decidable (m.gicd ≠ 0 ∧ m.gicc ≠ 0))

/-- The collaborators leave the two control registers, the read-only `typer`
and the binary point alone (they may change the priority threshold and their
own bookkeeping). -/
def Collaborators.KeepsControl (col : Collaborators) : Prop :=
  (∀ core_id s,
    (col.SetGicMask core_id s).1.ctlr = s.1.ctlr ∧
    (col.SetGicMask core_id s).1.typer = s.1.typer ∧
    (col.SetGicMask core_id s).2.ctlr = s.2.ctlr ∧
    (col.SetGicMask core_id s).2.bpr = s.2.bpr) ∧
  (∀ level s,
    (col.SetPriorityLevel level s).1.ctlr = s.1.ctlr ∧
    (col.SetPriorityLevel level s).1.typer = s.1.typer ∧
    (col.SetPriorityLevel level s).2.ctlr = s.2.ctlr ∧
    (col.SetPriorityLevel level s).2.bpr = s.2.bpr)

/-- The distributor `typer` value seen by the line reset inside `Finalize`. -/
def finalizeTyper (col : Collaborators) (core_id : Int) (m : Machine) : Nat :=
  (((if core_id = 0 then m.write Reg.gicd_ctlr 0 else m).write Reg.gicc_ctlr 0).callSetPriorityLevel
    col PriorityLevel.PriorityLevel_High).gicd_regs.typer

/-! ### Sample inputs -/

/-- A 64-line distributor (`typer` line-count field 1) in an arbitrary busy
state: every line enabled, pending and active, in group 1, mixed priorities. -/
def sampleDistributor : GicDistributor :=
  { ctlr := 1
    typer := 0x0000FC21
    igroupr := fun _ => 0xFFFFFFFF
    isenabler := fun i => 0x0F0F00FF + i
    ispendr := fun _ => 0x80000001
    isactiver := fun _ => 0x00010000
    ipriorityr := fun i => 0xA0B0C0D0 + i
    itargetsr := fun i => 0x01020408 + i
    icfgr := fun i => 0xAAAA5555 + i }

/-- A machine whose driver is bound to `sampleDistributor`. -/
def sampleMachine : Machine :=
  { gicd := 0x50041000
    gicc := 0x50042000
    gicd_regs := sampleDistributor
    gicc_regs := { ctlr := 1, pmr := 0xFF, bpr := 3 }
    trace := [] }

/-- A snapshot buffer as the caller hands it in, before it is filled. -/
def sampleSnapshot : SavedState :=
  { isenabler := fun _ => 0x11111111
    ipriorityr := fun _ => 0x22222222
    itargetsr := fun _ => 0x33333333
    icfgr := fun _ => 0x44444444 }

/-- Array lengths of a `GlobalState` that covers lines 32 .. 63. -/
def sizes64 : ArraySizes := { isenabler := 1, ipriorityr := 8, itargetsr := 8, icfgr := 2 }

/-- The 64-line scenario: the sample distributor reset from core 0, then the
priorities of lines 32, 33 and 34 set to 5, 5 and 10. -/
def scenario64 : Machine :=
  (((SetupInterruptLines 0 sampleMachine).write (Reg.ipriorityr_bytes 32) 5).write
    (Reg.ipriorityr_bytes 33) 5).write (Reg.ipriorityr_bytes 34) 10

/-- Collaborators for the sample machine: `SetGicMask` changes no register,
`SetPriorityLevel` stores the level's threshold in `pmr`. -/
def sampleCollaborators : Collaborators :=
  { GetInterruptDistributorAddress := 0x50041000
    GetInterruptCpuInterfaceAddress := 0x50042000
    SetGicMask := fun _ s => s
    SetPriorityLevel := fun level s =>
      (s.1, { s.2 with pmr := match level with
                              | PriorityLevel.PriorityLevel_High => 0x3F
                              | PriorityLevel.PriorityLevel_Low => 0xFF }) }

/-! ### Phases and index bounds of the line reset -/

/-- Phase of the line reset an access belongs to: 0 the read of `typer`, 1 a
clear-enable, clear-pending, clear-active or group write, 2 a priority or
target-mask byte write, 3 a config write, 4 anything else. -/
def resetPhase : Access → Nat
  | .read .gicd_typer => 0
  | .write (.icenabler _) _ => 1
  | .write (.icpendr _) _ => 1
  | .write (.icactiver _) _ => 1
  | .write (.igroupr _) _ => 1
  | .write (.ipriorityr_bytes _) _ => 2
  | .write (.itargetsr_bytes _) _ => 2
  | .write (.icfgr _) _ => 3
  | _ => 4

/-- The index of a register written by the line reset is in range: below 32
for the clear-enable, clear-pending, clear-active and group words, below 1024
for the priority and target-mask bytes, below 64 for the config words. -/
def Reg.resetIndexInRange : Reg → Bool
  | .icenabler i => decide (i < 32)
  | .icpendr i => decide (i < 32)
  | .icactiver i => decide (i < 32)
  | .igroupr i => decide (i < 32)
  | .ipriorityr_bytes i => decide (i < 1024)
  | .itargetsr_bytes i => decide (i < 1024)
  | .icfgr i => decide (i < 64)
  | _ => false

/-- The access is a write. -/
def Access.isWrite : Access → Bool
  | .write _ _ => true
  | _ => false

/-- The sample machine with the `typer` line-count field at its maximum, 31. -/
def sampleMachine1024 : Machine :=
  { sampleMachine with gicd_regs := { sampleDistributor with typer := 0x0000FC3F } }

/-! ### Save and restore with the offsets and lengths as arguments -/

/-- The save algorithm of `SaveCoreLocal` with each constant `Offset = 0`
replaced by the entry of `off` for that array and each array length replaced by
the entry of `sz`. -/
def genericSave (off sz : ArraySizes) (state : SavedState) (m : Machine) :
    SavedState × Machine :=
  -- Save isenabler.
  let s := forLoop sz.isenabler (fun i (s : SavedState × Machine) =>
    let Offset := off.isenabler
    let r := s.2.read (Reg.isenabler (i + Offset))
    ({ s.1 with isenabler := upd s.1.isenabler i r.1 },
      r.2.write (Reg.isenabler (i + Offset)) 0xFFFFFFFF)) (state, m)
  -- Save ipriorityr.
  let s := forLoop sz.ipriorityr (fun i (s : SavedState × Machine) =>
    let Offset := off.ipriorityr
    let r := s.2.read (Reg.ipriorityr_words (i + Offset))
    ({ s.1 with ipriorityr := upd s.1.ipriorityr i r.1 },
      r.2.write (Reg.ipriorityr_words (i + Offset)) 0xFFFFFFFF)) s
  -- Save itargetsr.
  let s := forLoop sz.itargetsr (fun i (s : SavedState × Machine) =>
    let Offset := off.itargetsr
    let r := s.2.read (Reg.itargetsr_words (i + Offset))
    ({ s.1 with itargetsr := upd s.1.itargetsr i r.1 }, r.2)) s
  -- Save icfgr.
  forLoop sz.icfgr (fun i (s : SavedState × Machine) =>
    let Offset := off.icfgr
    let r := s.2.read (Reg.icfgr (i + Offset))
    ({ s.1 with icfgr := upd s.1.icfgr i r.1 }, r.2)) s

/-- The restore algorithm of `RestoreCoreLocal` with each constant `Offset = 0`
replaced by the entry of `off` for that array and each array length replaced by
the entry of `sz`. -/
def genericRestore (off sz : ArraySizes) (state : SavedState) (m : Machine) : Machine :=
  -- Restore ipriorityr.
  let m := forLoop sz.ipriorityr (fun i m =>
    let Offset := off.ipriorityr
    m.write (Reg.ipriorityr_words (i + Offset)) (state.ipriorityr i)) m
  -- Restore itargetsr.
  let m := forLoop sz.itargetsr (fun i m =>
    let Offset := off.itargetsr
    m.write (Reg.itargetsr_words (i + Offset)) (state.itargetsr i)) m
  -- Restore icfgr.
  let m := forLoop sz.icfgr (fun i m =>
    let Offset := off.icfgr
    m.write (Reg.icfgr (i + Offset)) (state.icfgr i)) m
  -- Restore isenabler.
  forLoop sz.isenabler (fun i m =>
    let Offset := off.isenabler
    let m := m.write (Reg.icenabler (i + Offset)) 0xFFFFFFFF
    m.write (Reg.isenabler (i + Offset)) (state.isenabler i)) m

/-! ### Inputs for the configuration and double-save claims -/

/-- The total line count a pair of snapshot structures assumes: the local lines
plus the lines the `GlobalState` arrays of lengths `gsz` cover (each array
covers 32, 4, 4 and 16 lines per word; the smallest coverage counts). -/
def assumedLineCount (gsz : ArraySizes) : Nat :=
  NumLocalInterrupts +
    min (min (32 * gsz.isenabler) (4 * gsz.ipriorityr))
      (min (4 * gsz.itargetsr) (16 * gsz.icfgr))

/-- The sample machine with a 96-line distributor (`typer` line-count field 2). -/
def sampleMachine96 : Machine :=
  { sampleMachine with gicd_regs := { sampleDistributor with typer := 0x0000FC22 } }

/-! ## Basic facts and closed forms -/

set_option linter.unnecessarySeqFocus false
set_option linter.unusedTactic false
set_option linter.unreachableTactic false

attribute [ext] GicDistributor GicCpuInterface Machine SavedState

@[simp] theorem forLoop_zero {σ : Type} (body : Nat → σ → σ) (s : σ) :
    forLoop 0 body s = s := rfl

@[simp] theorem forLoop_succ {σ : Type} (n : Nat) (body : Nat → σ → σ) (s : σ) :
    forLoop (n + 1) body s = body n (forLoop n body s) := rfl

@[simp] theorem emit_zero {α : Type} (f : Nat → List α) : emit 0 f = [] := rfl

@[simp] theorem emit_succ {α : Type} (n : Nat) (f : Nat → List α) :
    emit (n + 1) f = emit n f ++ f n := rfl

theorem mem_emit {α : Type} (n : Nat) (f : Nat → List α) (a : α) :
    a ∈ emit n f ↔ ∃ i, i < n ∧ a ∈ f i := by
  induction n with
  | zero => simp
  | succ k ih =>
    simp only [emit_succ, List.mem_append, ih]
    constructor
    · rintro (⟨i, hi, ha⟩ | ha)
      · exact ⟨i, by omega, ha⟩
      · exact ⟨k, by omega, ha⟩
    · rintro ⟨i, hi, ha⟩
      by_cases h : i = k
      · subst h; exact Or.inr ha
      · exact Or.inl ⟨i, by omega, ha⟩

theorem forall_mem_emit {α : Type} (n : Nat) (f : Nat → List α) (p : α → Prop) :
    (∀ a ∈ emit n f, p a) ↔ ∀ i, i < n → ∀ a ∈ f i, p a := by
  constructor
  · intro h i hi a ha
    exact h a ((mem_emit n f a).2 ⟨i, hi, ha⟩)
  · intro h a ha
    obtain ⟨i, hi, hai⟩ := (mem_emit n f a).1 ha
    exact h i hi a hai

theorem saveEnableLoop_eq (off n : Nat) (st : SavedState) (m : Machine) :
    saveEnableLoop off n (st, m) =
      ({ st with isenabler := fun i => if i < n then m.gicd_regs.isenabler (i + off)
                                      else st.isenabler i },
       { m with
         gicd_regs := { m.gicd_regs with
           isenabler := fun j => if off ≤ j ∧ j < off + n
             then m.gicd_regs.isenabler j ||| 0xFFFFFFFF
             else m.gicd_regs.isenabler j }
         trace := m.trace ++ emit n (fun i =>
           [Access.read (Reg.isenabler (i + off)),
            Access.write (Reg.isenabler (i + off)) 0xFFFFFFFF]) }) := by
  induction n with
  | zero =>
    simp only [saveEnableLoop, forLoop_zero, emit_zero, Prod.mk.injEq]
    refine ⟨?_, ?_⟩
    · ext i <;> (try simp)
    · ext j <;> (try simp) <;> (try split_ifs) <;> first | rfl | omega
  | succ k ih =>
    unfold saveEnableLoop at ih ⊢
    rw [forLoop_succ, ih]
    simp only [Machine.read, Machine.write, Machine.load, GicDistributor.store,
      GicCpuInterface.store, emit_succ, Prod.mk.injEq]
    refine ⟨?_, ?_⟩
    · ext i <;> (try simp [upd]) <;> (try split_ifs) <;>
        first | rfl | omega | (subst_vars; simp)
    · ext j <;> (try simp [upd]) <;> (try split_ifs) <;>
        first | rfl | omega | (subst_vars; simp)

theorem savePriorityLoop_eq (off n : Nat) (st : SavedState) (m : Machine) :
    savePriorityLoop off n (st, m) =
      ({ st with ipriorityr := fun i => if i < n then m.gicd_regs.ipriorityr (i + off)
                                      else st.ipriorityr i },
       { m with
         gicd_regs := { m.gicd_regs with
           ipriorityr := fun j => if off ≤ j ∧ j < off + n
             then 0xFFFFFFFF
             else m.gicd_regs.ipriorityr j }
         trace := m.trace ++ emit n (fun i =>
           [Access.read (Reg.ipriorityr_words (i + off)),
            Access.write (Reg.ipriorityr_words (i + off)) 0xFFFFFFFF]) }) := by
  induction n with
  | zero =>
    simp only [savePriorityLoop, forLoop_zero, emit_zero, Prod.mk.injEq]
    refine ⟨?_, ?_⟩
    · ext i <;> (try simp)
    · ext j <;> (try simp) <;> (try split_ifs) <;> first | rfl | omega
  | succ k ih =>
    unfold savePriorityLoop at ih ⊢
    rw [forLoop_succ, ih]
    simp only [Machine.read, Machine.write, Machine.load, GicDistributor.store,
      GicCpuInterface.store, emit_succ, Prod.mk.injEq]
    refine ⟨?_, ?_⟩
    · ext i <;> (try simp [upd]) <;> (try split_ifs) <;>
        first | rfl | omega | (subst_vars; simp)
    · ext j <;> (try simp [upd]) <;> (try split_ifs) <;>
        first | rfl | omega | (subst_vars; simp)

theorem saveTargetsLoop_eq (off n : Nat) (st : SavedState) (m : Machine) :
    saveTargetsLoop off n (st, m) =
      ({ st with itargetsr := fun i => if i < n then m.gicd_regs.itargetsr (i + off)
                                      else st.itargetsr i },
       { m with
         trace := m.trace ++ emit n (fun i => [Access.read (Reg.itargetsr_words (i + off))]) }) := by
  induction n with
  | zero =>
    simp only [saveTargetsLoop, forLoop_zero, emit_zero, Prod.mk.injEq]
    refine ⟨?_, ?_⟩
    · ext i <;> (try simp)
    · ext j <;> (try simp) <;> (try split_ifs) <;> first | rfl | omega
  | succ k ih =>
    unfold saveTargetsLoop at ih ⊢
    rw [forLoop_succ, ih]
    simp only [Machine.read, Machine.write, Machine.load, GicDistributor.store,
      GicCpuInterface.store, emit_succ, Prod.mk.injEq]
    refine ⟨?_, ?_⟩
    · ext i <;> (try simp [upd]) <;> (try split_ifs) <;>
        first | rfl | omega | (subst_vars; simp)
    · ext j <;> (try simp [upd]) <;> (try split_ifs) <;>
        first | rfl | omega | (subst_vars; simp)

theorem saveConfigLoop_eq (off n : Nat) (st : SavedState) (m : Machine) :
    saveConfigLoop off n (st, m) =
      ({ st with icfgr := fun i => if i < n then m.gicd_regs.icfgr (i + off)
                                      else st.icfgr i },
       { m with
         trace := m.trace ++ emit n (fun i => [Access.read (Reg.icfgr (i + off))]) }) := by
  induction n with
  | zero =>
    simp only [saveConfigLoop, forLoop_zero, emit_zero, Prod.mk.injEq]
    refine ⟨?_, ?_⟩
    · ext i <;> (try simp)
    · ext j <;> (try simp) <;> (try split_ifs) <;> first | rfl | omega
  | succ k ih =>
    unfold saveConfigLoop at ih ⊢
    rw [forLoop_succ, ih]
    simp only [Machine.read, Machine.write, Machine.load, GicDistributor.store,
      GicCpuInterface.store, emit_succ, Prod.mk.injEq]
    refine ⟨?_, ?_⟩
    · ext i <;> (try simp [upd]) <;> (try split_ifs) <;>
        first | rfl | omega | (subst_vars; simp)
    · ext j <;> (try simp [upd]) <;> (try split_ifs) <;>
        first | rfl | omega | (subst_vars; simp)

theorem restorePriorityLoop_eq (state : SavedState) (off n : Nat) (m : Machine) :
    restorePriorityLoop state off n m =
      { m with
        gicd_regs := { m.gicd_regs with
          ipriorityr := fun j => if off ≤ j ∧ j < off + n then state.ipriorityr (j - off)
                              else m.gicd_regs.ipriorityr j }
        trace := m.trace ++ emit n (fun i =>
          [Access.write (Reg.ipriorityr_words (i + off)) (state.ipriorityr i)]) } := by
  induction n with
  | zero =>
    simp only [restorePriorityLoop, forLoop_zero, emit_zero]
    ext j <;> (try simp) <;> (try split_ifs) <;> first | rfl | omega
  | succ k ih =>
    unfold restorePriorityLoop at ih ⊢
    rw [forLoop_succ, ih]
    simp only [Machine.write, GicDistributor.store, GicCpuInterface.store, emit_succ]
    ext j <;> (try simp [upd]) <;> (try split_ifs) <;>
      first | rfl | omega | (subst_vars; simp)

theorem restoreTargetsLoop_eq (state : SavedState) (off n : Nat) (m : Machine) :
    restoreTargetsLoop state off n m =
      { m with
        gicd_regs := { m.gicd_regs with
          itargetsr := fun j => if off ≤ j ∧ j < off + n then state.itargetsr (j - off)
                              else m.gicd_regs.itargetsr j }
        trace := m.trace ++ emit n (fun i =>
          [Access.write (Reg.itargetsr_words (i + off)) (state.itargetsr i)]) } := by
  induction n with
  | zero =>
    simp only [restoreTargetsLoop, forLoop_zero, emit_zero]
    ext j <;> (try simp) <;> (try split_ifs) <;> first | rfl | omega
  | succ k ih =>
    unfold restoreTargetsLoop at ih ⊢
    rw [forLoop_succ, ih]
    simp only [Machine.write, GicDistributor.store, GicCpuInterface.store, emit_succ]
    ext j <;> (try simp [upd]) <;> (try split_ifs) <;>
      first | rfl | omega | (subst_vars; simp)

theorem restoreConfigLoop_eq (state : SavedState) (off n : Nat) (m : Machine) :
    restoreConfigLoop state off n m =
      { m with
        gicd_regs := { m.gicd_regs with
          icfgr := fun j => if off ≤ j ∧ j < off + n then state.icfgr (j - off)
                              else m.gicd_regs.icfgr j }
        trace := m.trace ++ emit n (fun i =>
          [Access.write (Reg.icfgr (i + off)) (state.icfgr i)]) } := by
  induction n with
  | zero =>
    simp only [restoreConfigLoop, forLoop_zero, emit_zero]
    ext j <;> (try simp) <;> (try split_ifs) <;> first | rfl | omega
  | succ k ih =>
    unfold restoreConfigLoop at ih ⊢
    rw [forLoop_succ, ih]
    simp only [Machine.write, GicDistributor.store, GicCpuInterface.store, emit_succ]
    ext j <;> (try simp [upd]) <;> (try split_ifs) <;>
      first | rfl | omega | (subst_vars; simp)

theorem restoreEnableLoop_eq (state : SavedState) (off n : Nat) (m : Machine) :
    restoreEnableLoop state off n m =
      { m with
        gicd_regs := { m.gicd_regs with
          isenabler := fun j => if off ≤ j ∧ j < off + n then state.isenabler (j - off)
                                else m.gicd_regs.isenabler j }
        trace := m.trace ++ emit n (fun i =>
          [Access.write (Reg.icenabler (i + off)) 0xFFFFFFFF,
           Access.write (Reg.isenabler (i + off)) (state.isenabler i)]) } := by
  induction n with
  | zero =>
    simp only [restoreEnableLoop, forLoop_zero, emit_zero]
    ext j <;> (try simp) <;> (try split_ifs) <;> first | rfl | omega
  | succ k ih =>
    unfold restoreEnableLoop at ih ⊢
    rw [forLoop_succ, ih]
    simp only [Machine.write, GicDistributor.store, GicCpuInterface.store, emit_succ]
    ext j <;> (try simp [upd]) <;> (try split_ifs) <;>
      first | rfl | omega | (subst_vars; simp)

theorem clearLoop_eq (n : Nat) (m : Machine) :
    clearLoop n m =
      { m with
        gicd_regs := { m.gicd_regs with
          igroupr := fun j => if j < n then 0 else m.gicd_regs.igroupr j
          isenabler := fun j => if j < n then 0 else m.gicd_regs.isenabler j
          ispendr := fun j => if j < n then 0 else m.gicd_regs.ispendr j
          isactiver := fun j => if j < n then 0 else m.gicd_regs.isactiver j }
        trace := m.trace ++ emit n (fun i =>
          [Access.write (Reg.icenabler i) 0xFFFFFFFF,
           Access.write (Reg.icpendr i) 0xFFFFFFFF,
           Access.write (Reg.icactiver i) 0xFFFFFFFF,
           Access.write (Reg.igroupr i) 0]) } := by
  induction n with
  | zero =>
    simp only [clearLoop, forLoop_zero, emit_zero]
    ext j <;> (try simp) <;> (try split_ifs) <;> first | rfl | omega
  | succ k ih =>
    unfold clearLoop at ih ⊢
    rw [forLoop_succ, ih]
    simp only [Machine.write, GicDistributor.store, GicCpuInterface.store, emit_succ]
    ext j <;> (try simp [upd]) <;> (try split_ifs) <;>
      first | rfl | omega | (subst_vars; simp)

theorem configLoop_eq (n : Nat) (m : Machine) :
    configLoop n m =
      { m with
        gicd_regs := { m.gicd_regs with
          icfgr := fun j => if j < n then 0 else m.gicd_regs.icfgr j }
        trace := m.trace ++ emit n (fun i => [Access.write (Reg.icfgr i) 0]) } := by
  induction n with
  | zero =>
    simp only [configLoop, forLoop_zero, emit_zero]
    ext j <;> (try simp) <;> (try split_ifs) <;> first | rfl | omega
  | succ k ih =>
    unfold configLoop at ih ⊢
    rw [forLoop_succ, ih]
    simp only [Machine.write, GicDistributor.store, GicCpuInterface.store, emit_succ]
    ext j <;> (try simp [upd]) <;> (try split_ifs) <;>
      first | rfl | omega | (subst_vars; simp)

theorem fillBytes_step (f : Nat → Nat) (k v j : Nat) :
    upd (fun j => fillBytes (f j) (min 4 (k - 4 * j)) v) (k / 4)
        (setByte (fillBytes (f (k / 4)) (min 4 (k - 4 * (k / 4))) v) (k % 4) v) j =
      fillBytes (f j) (min 4 (k + 1 - 4 * j)) v := by
  unfold upd
  split_ifs with h
  · subst h
    have h1 : min 4 (k - 4 * (k / 4)) = k % 4 := by omega
    have h2 : min 4 (k + 1 - 4 * (k / 4)) = k % 4 + 1 := by omega
    rw [h1, h2]
    rfl
  · have h1 : min 4 (k - 4 * j) = min 4 (k + 1 - 4 * j) := by omega
    show fillBytes (f j) (min 4 (k - 4 * j)) v = _
    rw [h1]

theorem byteLoop_eq (n : Nat) (m : Machine) :
    byteLoop n m =
      { m with
        gicd_regs := { m.gicd_regs with
          ipriorityr := fun j => fillBytes (m.gicd_regs.ipriorityr j) (min 4 (n - 4 * j)) 0xFF
          itargetsr := fun j => fillBytes (m.gicd_regs.itargetsr j) (min 4 (n - 4 * j)) 0x00 }
        trace := m.trace ++ emit n (fun i =>
          [Access.write (Reg.ipriorityr_bytes i) 0xFF,
           Access.write (Reg.itargetsr_bytes i) 0x00]) } := by
  induction n with
  | zero =>
    simp only [byteLoop, forLoop_zero, emit_zero]
    ext j <;> (try simp) <;> rfl
  | succ k ih =>
    unfold byteLoop at ih ⊢
    rw [forLoop_succ, ih]
    simp only [Machine.write, GicDistributor.store, GicCpuInterface.store, emit_succ]
    ext j
    case gicd_regs.ipriorityr.h => exact fillBytes_step _ k 0xFF j
    case gicd_regs.itargetsr.h => exact fillBytes_step _ k 0x00 j
    all_goals (try simp)

theorem getByte_setByte (w k v b : Nat) (hk : k < 4) (hb : b < 4) :
    getByte (setByte w k v) b = if b = k then v % 256 else getByte w b := by
  interval_cases k <;> interval_cases b <;> simp [getByte, setByte] <;> omega

theorem getByte_fillBytes (w k v b : Nat) (hk : k ≤ 4) (hb : b < 4) :
    getByte (fillBytes w k v) b = if b < k then v % 256 else getByte w b := by
  induction k with
  | zero => simp [fillBytes]
  | succ j ih =>
    have hj : j ≤ 4 := by omega
    rw [fillBytes, getByte_setByte _ _ _ _ (by omega) hb, ih hj]
    split_ifs <;> first | rfl | omega

theorem testBit_ones (k : Nat) (hk : k < 32) : (0xFFFFFFFF : Nat).testBit k = true := by
  interval_cases k <;> decide

theorem ITLines_fst (core_id : Int) (m : Machine) :
    (ITLines core_id m).1 = lineCount core_id m.gicd_regs.typer := by
  unfold ITLines lineCount
  split_ifs <;> rfl

theorem ITLines_snd (core_id : Int) (m : Machine) :
    (ITLines core_id m).2 =
      { m with trace := m.trace ++ (if core_id = 0 then [Access.read Reg.gicd_typer] else []) } := by
  unfold ITLines
  split_ifs <;> simp [Machine.read]

theorem SetupInterruptLines_eq (core_id : Int) (m : Machine) :
    SetupInterruptLines core_id m =
      { m with
        gicd_regs := resetRegs (lineCount core_id m.gicd_regs.typer) m.gicd_regs
        trace := m.trace ++ resetAccesses core_id m.gicd_regs.typer } := by
  have h : SetupInterruptLines core_id m =
      configLoop ((ITLines core_id m).1 / 16)
        (byteLoop (ITLines core_id m).1
          (clearLoop ((ITLines core_id m).1 / 32) (ITLines core_id m).2)) := rfl
  rw [h, ITLines_fst, ITLines_snd, clearLoop_eq, byteLoop_eq, configLoop_eq]
  simp [resetRegs, resetAccesses, resetWrites, List.append_assoc]

theorem lineCount_dvd (core_id : Int) (typer : Nat) :
    ∃ c, lineCount core_id typer = 32 * c := by
  unfold lineCount NumLocalInterrupts
  split_ifs
  · exact ⟨_, rfl⟩
  · exact ⟨1, rfl⟩

theorem save_loops_eq (off sz : ArraySizes) (st : SavedState) (m : Machine) :
    saveConfigLoop off.icfgr sz.icfgr
        (saveTargetsLoop off.itargetsr sz.itargetsr
          (savePriorityLoop off.ipriorityr sz.ipriorityr
            (saveEnableLoop off.isenabler sz.isenabler (st, m)))) =
      (savedSnapshot off sz st m.gicd_regs,
       { m with
         gicd_regs := regsAfterSave off sz m.gicd_regs
         trace := m.trace ++ saveAccesses off sz }) := by
  rw [saveEnableLoop_eq, savePriorityLoop_eq, saveTargetsLoop_eq, saveConfigLoop_eq]
  simp [savedSnapshot, regsAfterSave, saveAccesses, List.append_assoc]

theorem restore_loops_eq (off sz : ArraySizes) (st : SavedState) (m : Machine) :
    restoreEnableLoop st off.isenabler sz.isenabler
        (restoreConfigLoop st off.icfgr sz.icfgr
          (restoreTargetsLoop st off.itargetsr sz.itargetsr
            (restorePriorityLoop st off.ipriorityr sz.ipriorityr m))) =
      { m with
        gicd_regs := regsAfterRestore off sz st m.gicd_regs
        trace := m.trace ++ restoreAccesses off sz st } := by
  rw [restorePriorityLoop_eq, restoreTargetsLoop_eq, restoreConfigLoop_eq, restoreEnableLoop_eq]
  simp [regsAfterRestore, restoreAccesses, restorePriorityWrites, restoreTargetsWrites,
    restoreConfigWrites, restoreEnableWrites, List.append_assoc]

theorem SaveCoreLocal_eq (st : LocalState) (m : Machine) :
    SaveCoreLocal st m =
      (savedSnapshot noOffset LocalState.size st m.gicd_regs,
       { m with
         gicd_regs := regsAfterSave noOffset LocalState.size m.gicd_regs
         trace := m.trace ++ saveAccesses noOffset LocalState.size }) :=
  save_loops_eq noOffset LocalState.size st m

theorem SaveGlobal_eq (gsz : ArraySizes) (st : GlobalState) (m : Machine) :
    SaveGlobal gsz st m =
      (savedSnapshot LocalState.size gsz st m.gicd_regs,
       { m with
         gicd_regs := regsAfterSave LocalState.size gsz m.gicd_regs
         trace := m.trace ++ saveAccesses LocalState.size gsz }) :=
  save_loops_eq LocalState.size gsz st m

theorem RestoreCoreLocal_eq (st : LocalState) (m : Machine) :
    RestoreCoreLocal st m =
      { m with
        gicd_regs := regsAfterRestore noOffset LocalState.size st m.gicd_regs
        trace := m.trace ++ restoreAccesses noOffset LocalState.size st } :=
  restore_loops_eq noOffset LocalState.size st m

theorem RestoreGlobal_eq (gsz : ArraySizes) (st : GlobalState) (m : Machine) :
    RestoreGlobal gsz st m =
      { m with
        gicd_regs := regsAfterRestore LocalState.size gsz st m.gicd_regs
        trace := m.trace ++ restoreAccesses LocalState.size gsz st } :=
  restore_loops_eq LocalState.size gsz st m

theorem sublist_emit {α : Type} (n : Nat) (f : Nat → List α) (i : Nat) (hi : i < n) :
    (f i).Sublist (emit n f) := by
  induction n with
  | zero => omega
  | succ k ih =>
    rw [emit_succ]
    by_cases h : i = k
    · subst h; exact List.sublist_append_right _ _
    · exact (ih (by omega)).trans (List.sublist_append_left _ _)

theorem pairwise_phase_of_const (l : List Access) (c : Nat)
    (h : ∀ a ∈ l, restorePhase a = c) :
    l.Pairwise (fun a b => restorePhase a ≤ restorePhase b) := by
  induction l with
  | nil => exact List.Pairwise.nil
  | cons x xs ih =>
    refine List.Pairwise.cons ?_ (ih (fun a ha => h a (List.mem_cons_of_mem _ ha)))
    intro b hb
    rw [h x (List.mem_cons_self _ _), h b (List.mem_cons_of_mem _ hb)]

theorem restoreAccesses_phases (off sz : ArraySizes) (st : SavedState) :
    (restoreAccesses off sz st).Pairwise (fun a b => restorePhase a ≤ restorePhase b) := by
  have hP : ∀ a ∈ restorePriorityWrites off sz st, restorePhase a = 0 := by
    intro a ha
    simp only [restorePriorityWrites, mem_emit] at ha
    obtain ⟨i, -, hi⟩ := ha
    simp at hi; subst hi; rfl
  have hT : ∀ a ∈ restoreTargetsWrites off sz st, restorePhase a = 1 := by
    intro a ha
    simp only [restoreTargetsWrites, mem_emit] at ha
    obtain ⟨i, -, hi⟩ := ha
    simp at hi; subst hi; rfl
  have hC : ∀ a ∈ restoreConfigWrites off sz st, restorePhase a = 2 := by
    intro a ha
    simp only [restoreConfigWrites, mem_emit] at ha
    obtain ⟨i, -, hi⟩ := ha
    simp at hi; subst hi; rfl
  have hE : ∀ a ∈ restoreEnableWrites off sz st, restorePhase a = 3 := by
    intro a ha
    simp only [restoreEnableWrites, mem_emit] at ha
    obtain ⟨i, -, hi⟩ := ha
    simp at hi
    rcases hi with hi | hi <;> subst hi <;> rfl
  unfold restoreAccesses
  simp only [List.pairwise_append, List.mem_append]
  refine ⟨⟨⟨pairwise_phase_of_const _ 0 hP, pairwise_phase_of_const _ 1 hT, ?_⟩,
    pairwise_phase_of_const _ 2 hC, ?_⟩, pairwise_phase_of_const _ 3 hE, ?_⟩
  · intro a ha b hb
    rw [hP a ha, hT b hb]; omega
  · rintro a (ha | ha) b hb
    · rw [hP a ha, hC b hb]; omega
    · rw [hT a ha, hC b hb]; omega
  · rintro a ((ha | ha) | ha) b hb
    · rw [hP a ha, hE b hb]; omega
    · rw [hT a ha, hE b hb]; omega
    · rw [hC a ha, hE b hb]; omega

theorem sampleCollaborators_keepsControl : sampleCollaborators.KeepsControl :=
  ⟨fun _ _ => ⟨rfl, rfl, rfl, rfl⟩, fun _ _ => ⟨rfl, rfl, rfl, rfl⟩⟩

theorem sampleMachine_active : sampleMachine.Active := by
  decide

theorem Initialize_trace (col : Collaborators) (core_id : Int) (m : Machine) :
    (Initialize col core_id m).trace = m.trace ++
      ([Access.write Reg.gicc_ctlr 0] ++
        (if core_id = 0 then [Access.write Reg.gicd_ctlr 0] else []) ++
        [Access.write Reg.gicc_pmr 0, Access.write Reg.gicc_bpr 7] ++
        resetAccesses core_id m.gicd_regs.typer ++
        (if core_id = 0 then [Access.write Reg.gicd_ctlr 1] else []) ++
        [Access.write Reg.gicc_ctlr 1, Access.SetGicMask core_id,
         Access.SetPriorityLevel PriorityLevel.PriorityLevel_Low]) := by
  by_cases h : core_id = 0 <;>
    simp [Initialize, h, SetupInterruptLines_eq, Machine.write, GicDistributor.store,
      GicCpuInterface.store, Machine.callSetGicMask, Machine.callSetPriorityLevel]

theorem Finalize_trace (col : Collaborators) (core_id : Int) (m : Machine) :
    (Finalize col core_id m).trace = m.trace ++
      ((if core_id = 0 then [Access.write Reg.gicd_ctlr 0] else []) ++
        [Access.write Reg.gicc_ctlr 0,
         Access.SetPriorityLevel PriorityLevel.PriorityLevel_High] ++
        resetAccesses core_id (finalizeTyper col core_id m)) := by
  by_cases h : core_id = 0 <;>
    simp [Finalize, finalizeTyper, h, SetupInterruptLines_eq, Machine.write,
      GicDistributor.store, GicCpuInterface.store, Machine.callSetPriorityLevel]

theorem finalizeTyper_eq (col : Collaborators) (hcol : col.KeepsControl) (core_id : Int)
    (m : Machine) : finalizeTyper col core_id m = m.gicd_regs.typer := by
  unfold finalizeTyper
  by_cases h : core_id = 0 <;>
    simp [h, Machine.callSetPriorityLevel, (hcol.2 _ _).2.1, Machine.write,
      GicDistributor.store]

theorem resetAccesses_no_ctlr (core_id : Int) (typer : Nat) :
    ∀ a ∈ resetAccesses core_id typer,
      (∀ v, a ≠ Access.write Reg.gicd_ctlr v) ∧ (∀ v, a ≠ Access.write Reg.gicc_ctlr v) := by
  simp only [resetAccesses, resetWrites, List.forall_mem_append, forall_mem_emit]
  refine ⟨?_, ⟨?_, ?_⟩, ?_⟩
  · by_cases h : core_id = 0 <;> simp [h]
  · intro i _; simp
  · intro i _; simp
  · intro i _; simp

theorem resetWrites_local :
    ∀ a ∈ resetWrites NumLocalInterrupts,
      a.onReg (Reg.belowLine NumLocalInterrupts) = true := by
  simp only [resetWrites, List.forall_mem_append, forall_mem_emit]
  refine ⟨⟨?_, ?_⟩, ?_⟩ <;> intro i hi <;>
    simp [NumLocalInterrupts] at hi <;>
    simp [Access.onReg, Reg.belowLine, Reg.lines, NumLocalInterrupts] <;> omega

theorem load_resetRegs_local (m : Machine) (t : List Access) (r : Reg)
    (hr : r.fromLine NumLocalInterrupts = true) :
    Machine.load { m with
      gicd_regs := resetRegs NumLocalInterrupts m.gicd_regs, trace := t } r = m.load r := by
  cases r <;>
    simp [Reg.fromLine, Reg.lines, NumLocalInterrupts] at hr <;>
    rename_i i <;>
    simp only [Machine.load, resetRegs, NumLocalInterrupts, GicDistributor.ipriorityr_bytes,
      GicDistributor.itargetsr_bytes] <;>
    (try split_ifs) <;>
    first
    | rfl
    | omega
    | (have h : min 4 (32 - 4 * (i / 4)) = 0 := by omega
       rw [h]; rfl)
    | (have h : min 4 (32 - 4 * i) = 0 := by omega
       rw [h]; rfl)

theorem setup_resets_line (core_id : Int) (m : Machine) (n : Nat)
    (hn : n < lineCount core_id m.gicd_regs.typer) :
    (SetupInterruptLines core_id m).gicd_regs.enabled n = false ∧
    (SetupInterruptLines core_id m).gicd_regs.pending n = false ∧
    (SetupInterruptLines core_id m).gicd_regs.active n = false ∧
    (SetupInterruptLines core_id m).gicd_regs.group n = false ∧
    (SetupInterruptLines core_id m).gicd_regs.ipriorityr_bytes n = 0xFF ∧
    (SetupInterruptLines core_id m).gicd_regs.itargetsr_bytes n = 0x00 ∧
    (SetupInterruptLines core_id m).gicd_regs.config n = 0 := by
  obtain ⟨c, hc⟩ := lineCount_dvd core_id m.gicd_regs.typer
  have hn2 : n < 32 * c := by rw [← hc]; exact hn
  have h32 : n / 32 < 32 * c / 32 := by omega
  have h16 : n / 16 < 32 * c / 16 := by omega
  have h4 : min 4 (32 * c - 4 * (n / 4)) = 4 := by omega
  have hb : n % 4 < 4 := by omega
  rw [SetupInterruptLines_eq, hc]
  simp only [GicDistributor.enabled, GicDistributor.pending, GicDistributor.active,
    GicDistributor.group, GicDistributor.ipriorityr_bytes, GicDistributor.itargetsr_bytes,
    GicDistributor.config, lineBit, resetRegs, if_pos h32, if_pos h16, h4,
    getByte_fillBytes _ 4 _ _ (Nat.le_refl 4) hb, if_pos hb]
  simp

theorem saveAccesses_local :
    ∀ a ∈ saveAccesses noOffset LocalState.size,
      a.onReg (Reg.belowLine NumLocalInterrupts) = true := by
  simp only [saveAccesses, List.forall_mem_append, forall_mem_emit]
  refine ⟨⟨⟨?_, ?_⟩, ?_⟩, ?_⟩ <;> intro i hi <;>
    simp [LocalState.size, NumLocalInterrupts, noOffset] at hi <;>
    simp [Access.onReg, Reg.belowLine, Reg.lines, NumLocalInterrupts, noOffset] <;> omega

theorem restoreAccesses_local (st : SavedState) :
    ∀ a ∈ restoreAccesses noOffset LocalState.size st,
      a.onReg (Reg.belowLine NumLocalInterrupts) = true := by
  simp only [restoreAccesses, restorePriorityWrites, restoreTargetsWrites, restoreConfigWrites,
    restoreEnableWrites, List.forall_mem_append, forall_mem_emit]
  refine ⟨⟨⟨?_, ?_⟩, ?_⟩, ?_⟩ <;> intro i hi <;>
    simp [LocalState.size, NumLocalInterrupts, noOffset] at hi <;>
    simp [Access.onReg, Reg.belowLine, Reg.lines, NumLocalInterrupts, noOffset] <;> omega

theorem saveAccesses_global (gsz : ArraySizes) :
    ∀ a ∈ saveAccesses LocalState.size gsz,
      a.onReg (Reg.fromLine NumLocalInterrupts) = true := by
  simp only [saveAccesses, List.forall_mem_append, forall_mem_emit]
  refine ⟨⟨⟨?_, ?_⟩, ?_⟩, ?_⟩ <;> intro i _ <;>
    simp [Access.onReg, Reg.fromLine, Reg.lines, NumLocalInterrupts, LocalState.size] <;> omega

theorem restoreAccesses_global (gsz : ArraySizes) (st : SavedState) :
    ∀ a ∈ restoreAccesses LocalState.size gsz st,
      a.onReg (Reg.fromLine NumLocalInterrupts) = true := by
  simp only [restoreAccesses, restorePriorityWrites, restoreTargetsWrites, restoreConfigWrites,
    restoreEnableWrites, List.forall_mem_append, forall_mem_emit]
  refine ⟨⟨⟨?_, ?_⟩, ?_⟩, ?_⟩ <;> intro i _ <;>
    simp [Access.onReg, Reg.fromLine, Reg.lines, NumLocalInterrupts, LocalState.size] <;> omega

theorem load_regsAfterSave_local (m : Machine) (t : List Access) (r : Reg)
    (hr : r.fromLine NumLocalInterrupts = true) :
    Machine.load { m with
      gicd_regs := regsAfterSave noOffset LocalState.size m.gicd_regs, trace := t } r
      = m.load r := by
  cases r <;>
    simp [Reg.fromLine, Reg.lines, NumLocalInterrupts] at hr <;>
    simp [Machine.load, regsAfterSave, noOffset, LocalState.size, NumLocalInterrupts,
      GicDistributor.ipriorityr_bytes, GicDistributor.itargetsr_bytes] <;>
    (try split_ifs) <;> (try intro h) <;> first | rfl | omega

theorem load_regsAfterRestore_local (m : Machine) (st : SavedState) (t : List Access) (r : Reg)
    (hr : r.fromLine NumLocalInterrupts = true) :
    Machine.load { m with
      gicd_regs := regsAfterRestore noOffset LocalState.size st m.gicd_regs, trace := t } r
      = m.load r := by
  cases r <;>
    simp [Reg.fromLine, Reg.lines, NumLocalInterrupts] at hr <;>
    simp [Machine.load, regsAfterRestore, noOffset, LocalState.size, NumLocalInterrupts,
      GicDistributor.ipriorityr_bytes, GicDistributor.itargetsr_bytes] <;>
    (try split_ifs) <;> (try intro h) <;> first | rfl | omega

theorem load_regsAfterSave_global (gsz : ArraySizes) (m : Machine) (t : List Access) (r : Reg)
    (hr : r.belowLine NumLocalInterrupts = true) :
    Machine.load { m with
      gicd_regs := regsAfterSave LocalState.size gsz m.gicd_regs, trace := t } r
      = m.load r := by
  cases r <;>
    simp [Reg.belowLine, Reg.lines, NumLocalInterrupts] at hr <;>
    simp [Machine.load, regsAfterSave, LocalState.size, NumLocalInterrupts,
      GicDistributor.ipriorityr_bytes, GicDistributor.itargetsr_bytes] <;>
    (try split_ifs) <;> (try intro h) <;> first | rfl | omega

theorem load_regsAfterRestore_global (gsz : ArraySizes) (m : Machine) (st : SavedState)
    (t : List Access) (r : Reg) (hr : r.belowLine NumLocalInterrupts = true) :
    Machine.load { m with
      gicd_regs := regsAfterRestore LocalState.size gsz st m.gicd_regs, trace := t } r
      = m.load r := by
  cases r <;>
    simp [Reg.belowLine, Reg.lines, NumLocalInterrupts] at hr <;>
    simp [Machine.load, regsAfterRestore, LocalState.size, NumLocalInterrupts,
      GicDistributor.ipriorityr_bytes, GicDistributor.itargetsr_bytes] <;>
    (try split_ifs) <;> (try intro h) <;> first | rfl | omega

theorem resetAccesses_other_core (core_id : Int) (h : core_id ≠ 0) (typer : Nat) :
    resetAccesses core_id typer = resetWrites NumLocalInterrupts := by
  simp [resetAccesses, lineCount, h]

theorem resetWrites_cover (c n : Nat) (hn : n < 32 * c) :
    Access.write (Reg.icenabler (n / 32)) 0xFFFFFFFF ∈ resetWrites (32 * c) ∧
    Access.write (Reg.icpendr (n / 32)) 0xFFFFFFFF ∈ resetWrites (32 * c) ∧
    Access.write (Reg.icactiver (n / 32)) 0xFFFFFFFF ∈ resetWrites (32 * c) ∧
    Access.write (Reg.igroupr (n / 32)) 0 ∈ resetWrites (32 * c) ∧
    Access.write (Reg.ipriorityr_bytes n) 0xFF ∈ resetWrites (32 * c) ∧
    Access.write (Reg.itargetsr_bytes n) 0x00 ∈ resetWrites (32 * c) ∧
    Access.write (Reg.icfgr (n / 16)) 0 ∈ resetWrites (32 * c) := by
  have h32 : n / 32 < 32 * c / 32 := by omega
  have h16 : n / 16 < 32 * c / 16 := by omega
  simp only [resetWrites, List.mem_append, mem_emit]
  refine ⟨?_, ?_, ?_, ?_, ?_, ?_, ?_⟩
  · exact Or.inl (Or.inl ⟨n / 32, h32, by simp⟩)
  · exact Or.inl (Or.inl ⟨n / 32, h32, by simp⟩)
  · exact Or.inl (Or.inl ⟨n / 32, h32, by simp⟩)
  · exact Or.inl (Or.inl ⟨n / 32, h32, by simp⟩)
  · exact Or.inl (Or.inr ⟨n, hn, by simp⟩)
  · exact Or.inl (Or.inr ⟨n, hn, by simp⟩)
  · exact Or.inr ⟨n / 16, h16, by simp⟩

theorem pairwise_le_of_const {α : Type} (ph : α → Nat) (l : List α) (c : Nat)
    (h : ∀ a ∈ l, ph a = c) : l.Pairwise (fun a b => ph a ≤ ph b) := by
  induction l with
  | nil => exact List.Pairwise.nil
  | cons x xs ih =>
    refine List.Pairwise.cons ?_ (ih (fun a ha => h a (List.mem_cons_of_mem _ ha)))
    intro b hb
    rw [h x (List.mem_cons_self _ _), h b (List.mem_cons_of_mem _ hb)]

theorem lineCount_le (core_id : Int) (typer : Nat) : lineCount core_id typer ≤ 1024 := by
  unfold lineCount NumLocalInterrupts
  have h : typer &&& 0x1F ≤ 0x1F := Nat.and_le_right
  split_ifs <;> omega

theorem resetWrites_phases (n : Nat) :
    (resetWrites n).Pairwise (fun a b => resetPhase a ≤ resetPhase b) ∧
    ∀ a ∈ resetWrites n, 1 ≤ resetPhase a := by
  have hA : ∀ a ∈ emit (n / 32) (fun i =>
      [Access.write (Reg.icenabler i) 0xFFFFFFFF,
       Access.write (Reg.icpendr i) 0xFFFFFFFF,
       Access.write (Reg.icactiver i) 0xFFFFFFFF,
       Access.write (Reg.igroupr i) 0]), resetPhase a = 1 := by
    rw [forall_mem_emit]
    intro i _
    simp [resetPhase]
  have hB : ∀ a ∈ emit n (fun i =>
      [Access.write (Reg.ipriorityr_bytes i) 0xFF,
       Access.write (Reg.itargetsr_bytes i) 0x00]), resetPhase a = 2 := by
    rw [forall_mem_emit]
    intro i _
    simp [resetPhase]
  have hC : ∀ a ∈ emit (n / 16) (fun i => [Access.write (Reg.icfgr i) 0]),
      resetPhase a = 3 := by
    rw [forall_mem_emit]
    intro i _
    simp [resetPhase]
  unfold resetWrites
  constructor
  · simp only [List.pairwise_append, List.mem_append]
    refine ⟨⟨pairwise_le_of_const _ _ 1 hA, pairwise_le_of_const _ _ 2 hB, ?_⟩,
      pairwise_le_of_const _ _ 3 hC, ?_⟩
    · intro a ha b hb
      rw [hA a ha, hB b hb]; omega
    · rintro a (ha | ha) b hb
      · rw [hA a ha, hC b hb]; omega
      · rw [hB a ha, hC b hb]; omega
  · simp only [List.forall_mem_append]
    refine ⟨⟨?_, ?_⟩, ?_⟩
    · intro a ha; rw [hA a ha]
    · intro a ha; rw [hB a ha]; omega
    · intro a ha; rw [hC a ha]; omega

theorem resetAccesses_phases (core_id : Int) (typer : Nat) :
    (resetAccesses core_id typer).Pairwise (fun a b => resetPhase a ≤ resetPhase b) := by
  unfold resetAccesses
  rw [List.pairwise_append]
  refine ⟨?_, (resetWrites_phases _).1, ?_⟩
  · by_cases h : core_id = 0 <;> simp [h]
  · intro a ha b hb
    have hb1 := (resetWrites_phases _).2 b hb
    by_cases h : core_id = 0
    · simp [h] at ha
      subst ha
      exact Nat.zero_le _
    · simp [h] at ha

theorem resetWrites_in_range (n : Nat) (hn : n ≤ 1024) :
    ∀ a ∈ resetWrites n, a.isWrite = true ∧ a.onReg Reg.resetIndexInRange = true := by
  simp only [resetWrites, List.forall_mem_append, forall_mem_emit]
  refine ⟨⟨?_, ?_⟩, ?_⟩ <;> intro i hi <;>
    simp [Access.isWrite, Access.onReg, Reg.resetIndexInRange] <;> omega

theorem exists_index_iff (off n j : Nat) :
    (∃ i, i < n ∧ j = i + off) ↔ off ≤ j ∧ j < off + n := by
  constructor
  · rintro ⟨i, hi, rfl⟩
    omega
  · intro h
    exact ⟨j - off, by omega, by omega⟩

theorem or_ones (e : Nat) (h : e < 2 ^ 32) : e ||| 0xFFFFFFFF = 0xFFFFFFFF := by
  apply Nat.eq_of_testBit_eq
  intro k
  rw [Nat.testBit_or]
  by_cases hk : k < 32
  · rw [testBit_ones k hk]
    simp
  · have h1 : e < 2 ^ k :=
      Nat.lt_of_lt_of_le h (Nat.pow_le_pow_right (by decide) (by omega))
    rw [Nat.testBit_eq_false_of_lt h1]
    simp

theorem saveAccesses_reads (off sz : ArraySizes) (j : Nat) :
    (Access.read (Reg.isenabler j) ∈ saveAccesses off sz ↔
      off.isenabler ≤ j ∧ j < off.isenabler + sz.isenabler) ∧
    (Access.read (Reg.ipriorityr_words j) ∈ saveAccesses off sz ↔
      off.ipriorityr ≤ j ∧ j < off.ipriorityr + sz.ipriorityr) ∧
    (Access.read (Reg.itargetsr_words j) ∈ saveAccesses off sz ↔
      off.itargetsr ≤ j ∧ j < off.itargetsr + sz.itargetsr) ∧
    (Access.read (Reg.icfgr j) ∈ saveAccesses off sz ↔
      off.icfgr ≤ j ∧ j < off.icfgr + sz.icfgr) := by
  simp only [saveAccesses, List.mem_append, mem_emit]
  refine ⟨?_, ?_, ?_, ?_⟩ <;> simp [exists_index_iff]

/-! ## Claims -/

/-- C1: after `SetupInterruptLines(core_id)` every line `n` in scope
(`n < 32 * ((typer & 0x1F) + 1)` on core 0, `n < NumLocalInterrupts` on the
other cores) is disabled, not pending, not active, in group 0, has priority
byte `0xFF`, target-mask byte `0x00` and edge/level field 0. -/
theorem C1_SetupInterruptLines_resets_lines (core_id : Int) (m : Machine) (n : Nat)
    (hn : n < (if core_id = 0 then 32 * ((m.gicd_regs.typer &&& 0x1F) + 1)
               else NumLocalInterrupts)) :
    (SetupInterruptLines core_id m).gicd_regs.enabled n = false ∧
    (SetupInterruptLines core_id m).gicd_regs.pending n = false ∧
    (SetupInterruptLines core_id m).gicd_regs.active n = false ∧
    (SetupInterruptLines core_id m).gicd_regs.group n = false ∧
    (SetupInterruptLines core_id m).gicd_regs.ipriorityr_bytes n = 0xFF ∧
    (SetupInterruptLines core_id m).gicd_regs.itargetsr_bytes n = 0x00 ∧
    (SetupInterruptLines core_id m).gicd_regs.config n = 0 :=
  setup_resets_line core_id m n hn

/-- C1 at line 40 of the 64-line sample distributor, reset from core 0. -/
theorem C1_SetupInterruptLines_resets_lines_witness :
    (40 < (if (0 : Int) = 0 then 32 * ((sampleMachine.gicd_regs.typer &&& 0x1F) + 1)
           else NumLocalInterrupts)) ∧
    (SetupInterruptLines 0 sampleMachine).gicd_regs.enabled 40 = false ∧
    (SetupInterruptLines 0 sampleMachine).gicd_regs.pending 40 = false ∧
    (SetupInterruptLines 0 sampleMachine).gicd_regs.active 40 = false ∧
    (SetupInterruptLines 0 sampleMachine).gicd_regs.group 40 = false ∧
    (SetupInterruptLines 0 sampleMachine).gicd_regs.ipriorityr_bytes 40 = 0xFF ∧
    (SetupInterruptLines 0 sampleMachine).gicd_regs.itargetsr_bytes 40 = 0x00 ∧
    (SetupInterruptLines 0 sampleMachine).gicd_regs.config 40 = 0 :=
  ⟨by decide, C1_SetupInterruptLines_resets_lines 0 sampleMachine 40 (by decide)⟩

/-- C2: `SaveCoreLocal` into a snapshot followed immediately by
`RestoreCoreLocal` from that snapshot leaves the enable bitmap, the priority
bytes, the target-mask bytes and the edge/level config words (indeed the whole
distributor block) exactly as they were before the save, for every initial
state and every initial content of the snapshot buffer. -/
theorem C2_save_restore_core_local_roundtrip (st : LocalState) (m : Machine) :
    (∀ i, (RestoreCoreLocal (SaveCoreLocal st m).1 (SaveCoreLocal st m).2).gicd_regs.isenabler i
        = m.gicd_regs.isenabler i) ∧
    (∀ n, (RestoreCoreLocal (SaveCoreLocal st m).1 (SaveCoreLocal st m).2).gicd_regs.enabled n
        = m.gicd_regs.enabled n) ∧
    (∀ n, (RestoreCoreLocal (SaveCoreLocal st m).1
        (SaveCoreLocal st m).2).gicd_regs.ipriorityr_bytes n = m.gicd_regs.ipriorityr_bytes n) ∧
    (∀ n, (RestoreCoreLocal (SaveCoreLocal st m).1
        (SaveCoreLocal st m).2).gicd_regs.itargetsr_bytes n = m.gicd_regs.itargetsr_bytes n) ∧
    (∀ i, (RestoreCoreLocal (SaveCoreLocal st m).1 (SaveCoreLocal st m).2).gicd_regs.icfgr i
        = m.gicd_regs.icfgr i) ∧
    (RestoreCoreLocal (SaveCoreLocal st m).1 (SaveCoreLocal st m).2).gicd_regs = m.gicd_regs := by
  have h : (RestoreCoreLocal (SaveCoreLocal st m).1 (SaveCoreLocal st m).2).gicd_regs
      = m.gicd_regs := by
    rw [SaveCoreLocal_eq, RestoreCoreLocal_eq]
    ext j <;> (try simp [regsAfterRestore, regsAfterSave, savedSnapshot, noOffset]) <;>
      (try split_ifs) <;> first | rfl | omega
  rw [h]
  simp

/-- C3: the snapshot `g` taken by `SaveGlobal` holds, at entry `i` of each
array, the register word at index `i` plus the length of the corresponding
`LocalState` array; and whatever the distributor holds afterwards (`m2`),
`RestoreGlobal g` makes each of those enable, priority, target-mask and config
words equal to its value at the time of the save. -/
theorem C3_save_global_restore_global (gsz : ArraySizes) (g0 : GlobalState) (m m2 : Machine) :
    (∀ i, i < gsz.isenabler →
      (SaveGlobal gsz g0 m).1.isenabler i = m.gicd_regs.isenabler (i + LocalState.size.isenabler) ∧
      (RestoreGlobal gsz (SaveGlobal gsz g0 m).1 m2).gicd_regs.isenabler
          (i + LocalState.size.isenabler) = m.gicd_regs.isenabler (i + LocalState.size.isenabler)) ∧
    (∀ i, i < gsz.ipriorityr →
      (SaveGlobal gsz g0 m).1.ipriorityr i
          = m.gicd_regs.ipriorityr (i + LocalState.size.ipriorityr) ∧
      (RestoreGlobal gsz (SaveGlobal gsz g0 m).1 m2).gicd_regs.ipriorityr
          (i + LocalState.size.ipriorityr)
          = m.gicd_regs.ipriorityr (i + LocalState.size.ipriorityr)) ∧
    (∀ i, i < gsz.itargetsr →
      (SaveGlobal gsz g0 m).1.itargetsr i = m.gicd_regs.itargetsr (i + LocalState.size.itargetsr) ∧
      (RestoreGlobal gsz (SaveGlobal gsz g0 m).1 m2).gicd_regs.itargetsr
          (i + LocalState.size.itargetsr) = m.gicd_regs.itargetsr (i + LocalState.size.itargetsr)) ∧
    (∀ i, i < gsz.icfgr →
      (SaveGlobal gsz g0 m).1.icfgr i = m.gicd_regs.icfgr (i + LocalState.size.icfgr) ∧
      (RestoreGlobal gsz (SaveGlobal gsz g0 m).1 m2).gicd_regs.icfgr
          (i + LocalState.size.icfgr) = m.gicd_regs.icfgr (i + LocalState.size.icfgr)) := by
  rw [SaveGlobal_eq, RestoreGlobal_eq]
  refine ⟨?_, ?_, ?_, ?_⟩ <;> intro i hi <;>
    simp [regsAfterRestore, savedSnapshot, hi] <;> intro h <;> omega

/-- C3 on the 64-line scenario: the priorities 5, 5, 10 of lines 32, 33, 34 sit
in priority word 8, are captured in entry 0 of the snapshot, and come back
after the distributor has been overwritten by the sample state. -/
theorem C3_save_global_restore_global_witness :
    (0 < sizes64.ipriorityr) ∧
    scenario64.gicd_regs.ipriorityr (0 + LocalState.size.ipriorityr) = 0xFF0A0505 ∧
    ((SaveGlobal sizes64 sampleSnapshot scenario64).1.ipriorityr 0
        = scenario64.gicd_regs.ipriorityr (0 + LocalState.size.ipriorityr) ∧
      (RestoreGlobal sizes64 (SaveGlobal sizes64 sampleSnapshot scenario64).1
          sampleMachine).gicd_regs.ipriorityr (0 + LocalState.size.ipriorityr)
        = scenario64.gicd_regs.ipriorityr (0 + LocalState.size.ipriorityr)) :=
  ⟨by decide, by decide,
    (C3_save_global_restore_global sizes64 sampleSnapshot scenario64 sampleMachine).2.1 0
      (by decide)⟩

/-- C4: for `core_id != 0`, `Initialize` and `Finalize` never write the
distributor `ctlr`, every distributor access they make is to a register entry
of lines below `NumLocalInterrupts`, and the line reset leaves every register
entry of lines from `NumLocalInterrupts` on unchanged; for `core_id == 0` they
write the distributor `ctlr` and the line reset writes the clear-enable,
clear-pending, clear-active, group, priority, target and config entry of every
line below `32 * ((typer & 0x1F) + 1)`. -/
theorem C4_core0_only_global_effects (col : Collaborators) (core_id : Int) (m : Machine) :
    (core_id ≠ 0 →
      (∀ v, Access.write Reg.gicd_ctlr v ∉ (Initialize col core_id m).trace.drop m.trace.length) ∧
      (∀ v, Access.write Reg.gicd_ctlr v ∉ (Finalize col core_id m).trace.drop m.trace.length) ∧
      (∀ a ∈ (Initialize col core_id m).trace.drop m.trace.length,
        a.onReg Reg.isDistributor = true → a.onReg (Reg.belowLine NumLocalInterrupts) = true) ∧
      (∀ a ∈ (Finalize col core_id m).trace.drop m.trace.length,
        a.onReg Reg.isDistributor = true → a.onReg (Reg.belowLine NumLocalInterrupts) = true) ∧
      (∀ a ∈ (SetupInterruptLines core_id m).trace.drop m.trace.length,
        a.onReg (Reg.belowLine NumLocalInterrupts) = true) ∧
      (∀ r : Reg, r.fromLine NumLocalInterrupts = true →
        (SetupInterruptLines core_id m).load r = m.load r)) ∧
    (Access.write Reg.gicd_ctlr 0 ∈ (Initialize col 0 m).trace.drop m.trace.length ∧
      Access.write Reg.gicd_ctlr 1 ∈ (Initialize col 0 m).trace.drop m.trace.length ∧
      Access.write Reg.gicd_ctlr 0 ∈ (Finalize col 0 m).trace.drop m.trace.length) ∧
    (∀ n, n < 32 * ((m.gicd_regs.typer &&& 0x1F) + 1) →
      Access.write (Reg.icenabler (n / 32)) 0xFFFFFFFF ∈
        (SetupInterruptLines 0 m).trace.drop m.trace.length ∧
      Access.write (Reg.icpendr (n / 32)) 0xFFFFFFFF ∈
        (SetupInterruptLines 0 m).trace.drop m.trace.length ∧
      Access.write (Reg.icactiver (n / 32)) 0xFFFFFFFF ∈
        (SetupInterruptLines 0 m).trace.drop m.trace.length ∧
      Access.write (Reg.igroupr (n / 32)) 0 ∈
        (SetupInterruptLines 0 m).trace.drop m.trace.length ∧
      Access.write (Reg.ipriorityr_bytes n) 0xFF ∈
        (SetupInterruptLines 0 m).trace.drop m.trace.length ∧
      Access.write (Reg.itargetsr_bytes n) 0x00 ∈
        (SetupInterruptLines 0 m).trace.drop m.trace.length ∧
      Access.write (Reg.icfgr (n / 16)) 0 ∈
        (SetupInterruptLines 0 m).trace.drop m.trace.length) := by
  refine ⟨?_, ?_, ?_⟩
  · intro h
    have hI : (Initialize col core_id m).trace.drop m.trace.length =
        [Access.write Reg.gicc_ctlr 0, Access.write Reg.gicc_pmr 0, Access.write Reg.gicc_bpr 7] ++
          resetWrites NumLocalInterrupts ++
          [Access.write Reg.gicc_ctlr 1, Access.SetGicMask core_id,
           Access.SetPriorityLevel PriorityLevel.PriorityLevel_Low] := by
      rw [Initialize_trace, List.drop_left, resetAccesses_other_core core_id h]
      simp [h]
    have hF : (Finalize col core_id m).trace.drop m.trace.length =
        [Access.write Reg.gicc_ctlr 0,
         Access.SetPriorityLevel PriorityLevel.PriorityLevel_High] ++
          resetWrites NumLocalInterrupts := by
      rw [Finalize_trace, List.drop_left, resetAccesses_other_core core_id h]
      simp [h]
    have hS : (SetupInterruptLines core_id m).trace.drop m.trace.length =
        resetWrites NumLocalInterrupts := by
      rw [SetupInterruptLines_eq]
      simp only [List.drop_left]
      exact resetAccesses_other_core core_id h _
    have hL := resetWrites_local
    have hno : ∀ v, Access.write Reg.gicd_ctlr v ∉ resetWrites NumLocalInterrupts := by
      intro v hv
      have := hL _ hv
      simp [Access.onReg, Reg.belowLine, Reg.lines] at this
    refine ⟨?_, ?_, ?_, ?_, ?_, ?_⟩
    · intro v
      rw [hI]
      simp [hno v]
    · intro v
      rw [hF]
      simp [hno v]
    · rw [hI]
      simp only [List.forall_mem_append]
      refine ⟨⟨?_, fun a ha _ => hL a ha⟩, ?_⟩ <;> simp [Access.onReg, Reg.isDistributor]
    · rw [hF]
      simp only [List.forall_mem_append]
      refine ⟨?_, fun a ha _ => hL a ha⟩
      simp [Access.onReg, Reg.isDistributor]
    · rw [hS]
      exact hL
    · intro r hr
      rw [SetupInterruptLines_eq]
      have hc : lineCount core_id m.gicd_regs.typer = NumLocalInterrupts := by
        simp [lineCount, h]
      rw [hc]
      exact load_resetRegs_local m _ r hr
  · rw [Initialize_trace, Finalize_trace]
    simp
  · intro n hn
    rw [SetupInterruptLines_eq]
    simp only [List.drop_left]
    have hc : lineCount 0 m.gicd_regs.typer = 32 * ((m.gicd_regs.typer &&& 0x1F) + 1) := by
      simp [lineCount]
    have hcov := resetWrites_cover ((m.gicd_regs.typer &&& 0x1F) + 1) n hn
    simp only [resetAccesses, hc, List.mem_append]
    exact ⟨Or.inr hcov.1, Or.inr hcov.2.1, Or.inr hcov.2.2.1, Or.inr hcov.2.2.2.1,
      Or.inr hcov.2.2.2.2.1, Or.inr hcov.2.2.2.2.2.1, Or.inr hcov.2.2.2.2.2.2⟩

/-- C4 on the sample machine: core 1 for the frame part (priority byte 32 is
left alone by the line reset), line 40 for the core 0 part. -/
theorem C4_core0_only_global_effects_witness :
    ((1 : Int) ≠ 0) ∧
    (∀ v, Access.write Reg.gicd_ctlr v ∉
      (Initialize sampleCollaborators 1 sampleMachine).trace.drop sampleMachine.trace.length) ∧
    ((Reg.ipriorityr_bytes 32).fromLine NumLocalInterrupts = true) ∧
    (SetupInterruptLines 1 sampleMachine).load (Reg.ipriorityr_bytes 32)
      = sampleMachine.load (Reg.ipriorityr_bytes 32) ∧
    (40 < 32 * ((sampleMachine.gicd_regs.typer &&& 0x1F) + 1)) ∧
    Access.write (Reg.ipriorityr_bytes 40) 0xFF ∈
      (SetupInterruptLines 0 sampleMachine).trace.drop sampleMachine.trace.length :=
  ⟨by decide,
    ((C4_core0_only_global_effects sampleCollaborators 1 sampleMachine).1 (by decide)).1,
    by decide,
    ((C4_core0_only_global_effects sampleCollaborators 1 sampleMachine).1
      (by decide)).2.2.2.2.2 (Reg.ipriorityr_bytes 32) (by decide),
    by decide,
    ((C4_core0_only_global_effects sampleCollaborators 1 sampleMachine).2.2 40
      (by decide)).2.2.2.2.1⟩

/-- C5: with the `LocalState` arrays covering exactly `NumLocalInterrupts`
lines, every access of `SaveCoreLocal` and `RestoreCoreLocal` is to a register
entry of lines below `NumLocalInterrupts` and every register entry of lines
from `NumLocalInterrupts` on reads the same before and after them; every access
of `SaveGlobal` and `RestoreGlobal` is to a register entry of lines from
`NumLocalInterrupts` on and every register entry of lines below
`NumLocalInterrupts` reads the same before and after them. -/
theorem C5_local_global_disjoint (gsz : ArraySizes) (st : SavedState) (m : Machine) :
    (∀ a ∈ (SaveCoreLocal st m).2.trace.drop m.trace.length,
      a.onReg (Reg.belowLine NumLocalInterrupts) = true) ∧
    (∀ a ∈ (RestoreCoreLocal st m).trace.drop m.trace.length,
      a.onReg (Reg.belowLine NumLocalInterrupts) = true) ∧
    (∀ r : Reg, r.fromLine NumLocalInterrupts = true →
      (SaveCoreLocal st m).2.load r = m.load r ∧ (RestoreCoreLocal st m).load r = m.load r) ∧
    (∀ a ∈ (SaveGlobal gsz st m).2.trace.drop m.trace.length,
      a.onReg (Reg.fromLine NumLocalInterrupts) = true) ∧
    (∀ a ∈ (RestoreGlobal gsz st m).trace.drop m.trace.length,
      a.onReg (Reg.fromLine NumLocalInterrupts) = true) ∧
    (∀ r : Reg, r.belowLine NumLocalInterrupts = true →
      (SaveGlobal gsz st m).2.load r = m.load r ∧
      (RestoreGlobal gsz st m).load r = m.load r) := by
  rw [SaveCoreLocal_eq, RestoreCoreLocal_eq, SaveGlobal_eq, RestoreGlobal_eq]
  simp only [List.drop_left]
  exact ⟨saveAccesses_local, restoreAccesses_local st,
    fun r hr => ⟨load_regsAfterSave_local m _ r hr, load_regsAfterRestore_local m st _ r hr⟩,
    saveAccesses_global gsz, restoreAccesses_global gsz st,
    fun r hr => ⟨load_regsAfterSave_global gsz m _ r hr,
      load_regsAfterRestore_global gsz m st _ r hr⟩⟩

/-- C5 at priority word 8 (lines 32 .. 35) for the core-local functions and at
enable word 0 (lines 0 .. 31) for the global functions, on the sample machine. -/
theorem C5_local_global_disjoint_witness :
    ((Reg.ipriorityr_words 8).fromLine NumLocalInterrupts = true) ∧
    ((SaveCoreLocal sampleSnapshot sampleMachine).2.load (Reg.ipriorityr_words 8)
        = sampleMachine.load (Reg.ipriorityr_words 8) ∧
      (RestoreCoreLocal sampleSnapshot sampleMachine).load (Reg.ipriorityr_words 8)
        = sampleMachine.load (Reg.ipriorityr_words 8)) ∧
    ((Reg.isenabler 0).belowLine NumLocalInterrupts = true) ∧
    ((SaveGlobal sizes64 sampleSnapshot sampleMachine).2.load (Reg.isenabler 0)
        = sampleMachine.load (Reg.isenabler 0) ∧
      (RestoreGlobal sizes64 sampleSnapshot sampleMachine).load (Reg.isenabler 0)
        = sampleMachine.load (Reg.isenabler 0)) :=
  ⟨by decide,
    (C5_local_global_disjoint sizes64 sampleSnapshot sampleMachine).2.2.1
      (Reg.ipriorityr_words 8) (by decide),
    by decide,
    (C5_local_global_disjoint sizes64 sampleSnapshot sampleMachine).2.2.2.2.2
      (Reg.isenabler 0) (by decide)⟩

/-- C6: the writes of `RestoreCoreLocal` and of `RestoreGlobal` are, in order,
all priority-word writes, then all target-mask writes, then all config writes,
then for each enable word the all-ones clear-enable write followed by the
set-enable write of the snapshot value; so every priority, target-mask and
config write precedes every enable write, and the clear-enable write of word
`i` precedes the set-enable write of word `i`. -/
theorem C6_restore_write_order (gsz : ArraySizes) (st : SavedState) (m : Machine) :
    (RestoreCoreLocal st m).trace = m.trace ++
      (emit LocalState.size.ipriorityr (fun i =>
          [Access.write (Reg.ipriorityr_words i) (st.ipriorityr i)]) ++
        emit LocalState.size.itargetsr (fun i =>
          [Access.write (Reg.itargetsr_words i) (st.itargetsr i)]) ++
        emit LocalState.size.icfgr (fun i => [Access.write (Reg.icfgr i) (st.icfgr i)]) ++
        emit LocalState.size.isenabler (fun i =>
          [Access.write (Reg.icenabler i) 0xFFFFFFFF,
           Access.write (Reg.isenabler i) (st.isenabler i)])) ∧
    (RestoreGlobal gsz st m).trace = m.trace ++
      (emit gsz.ipriorityr (fun i =>
          [Access.write (Reg.ipriorityr_words (i + LocalState.size.ipriorityr))
            (st.ipriorityr i)]) ++
        emit gsz.itargetsr (fun i =>
          [Access.write (Reg.itargetsr_words (i + LocalState.size.itargetsr))
            (st.itargetsr i)]) ++
        emit gsz.icfgr (fun i =>
          [Access.write (Reg.icfgr (i + LocalState.size.icfgr)) (st.icfgr i)]) ++
        emit gsz.isenabler (fun i =>
          [Access.write (Reg.icenabler (i + LocalState.size.isenabler)) 0xFFFFFFFF,
           Access.write (Reg.isenabler (i + LocalState.size.isenabler)) (st.isenabler i)])) ∧
    ((RestoreCoreLocal st m).trace.drop m.trace.length).Pairwise
      (fun a b => restorePhase a ≤ restorePhase b) ∧
    ((RestoreGlobal gsz st m).trace.drop m.trace.length).Pairwise
      (fun a b => restorePhase a ≤ restorePhase b) ∧
    (∀ i, i < LocalState.size.isenabler →
      [Access.write (Reg.icenabler i) 0xFFFFFFFF,
       Access.write (Reg.isenabler i) (st.isenabler i)].Sublist
        ((RestoreCoreLocal st m).trace.drop m.trace.length)) ∧
    (∀ i, i < gsz.isenabler →
      [Access.write (Reg.icenabler (i + LocalState.size.isenabler)) 0xFFFFFFFF,
       Access.write (Reg.isenabler (i + LocalState.size.isenabler)) (st.isenabler i)].Sublist
        ((RestoreGlobal gsz st m).trace.drop m.trace.length)) := by
  rw [RestoreCoreLocal_eq, RestoreGlobal_eq]
  simp only [List.drop_left]
  refine ⟨?_, ?_, restoreAccesses_phases _ _ _, restoreAccesses_phases _ _ _, ?_, ?_⟩
  · simp [restoreAccesses, restorePriorityWrites, restoreTargetsWrites, restoreConfigWrites,
      restoreEnableWrites, noOffset]
  · simp [restoreAccesses, restorePriorityWrites, restoreTargetsWrites, restoreConfigWrites,
      restoreEnableWrites]
  · intro i hi
    have h := sublist_emit LocalState.size.isenabler (fun i =>
      [Access.write (Reg.icenabler (i + noOffset.isenabler)) 0xFFFFFFFF,
       Access.write (Reg.isenabler (i + noOffset.isenabler)) (st.isenabler i)]) i hi
    exact h.trans (List.sublist_append_right _ _)
  · intro i hi
    have h := sublist_emit gsz.isenabler (fun i =>
      [Access.write (Reg.icenabler (i + LocalState.size.isenabler)) 0xFFFFFFFF,
       Access.write (Reg.isenabler (i + LocalState.size.isenabler)) (st.isenabler i)]) i hi
    exact h.trans (List.sublist_append_right _ _)

/-- C6 at enable word 0, restoring the sample snapshot on the sample machine. -/
theorem C6_restore_write_order_witness :
    (0 < LocalState.size.isenabler) ∧
    [Access.write (Reg.icenabler 0) 0xFFFFFFFF,
     Access.write (Reg.isenabler 0) (sampleSnapshot.isenabler 0)].Sublist
      ((RestoreCoreLocal sampleSnapshot sampleMachine).trace.drop sampleMachine.trace.length) :=
  ⟨by decide,
    (C6_restore_write_order sizes64 sampleSnapshot sampleMachine).2.2.2.2.1 0 (by decide)⟩

/-- C7, as stated, fails: on the sample machine priority word 0 holds
`0xA0B0C0D0` before `SaveCoreLocal` and `0xFFFFFFFF` after it. -/
theorem C7_counterexample :
    sampleMachine.gicd_regs.ipriorityr 0 = 0xA0B0C0D0 ∧
    (SaveCoreLocal sampleSnapshot sampleMachine).2.gicd_regs.ipriorityr 0 = 0xFFFFFFFF ∧
    ¬ (∀ (st : LocalState) (m : Machine) (i : Nat), i < LocalState.size.ipriorityr →
        (SaveCoreLocal st m).2.gicd_regs.ipriorityr i = m.gicd_regs.ipriorityr i) := by
  refine ⟨by decide, by decide, ?_⟩
  intro h
  have h0 := h sampleSnapshot sampleMachine 0 (by decide)
  revert h0
  decide

/-- C7, amended: `SaveCoreLocal` leaves every target-mask word and every config
word of the distributor unmodified, snapshots every local-range priority word,
and overwrites that priority word with `0xFFFFFFFF`. -/
theorem C7_SaveCoreLocal_targets_config_unmodified (st : LocalState) (m : Machine) :
    (∀ i, (SaveCoreLocal st m).2.gicd_regs.itargetsr i = m.gicd_regs.itargetsr i) ∧
    (∀ i, (SaveCoreLocal st m).2.gicd_regs.icfgr i = m.gicd_regs.icfgr i) ∧
    (∀ i, i < LocalState.size.ipriorityr →
      (SaveCoreLocal st m).1.ipriorityr i = m.gicd_regs.ipriorityr i ∧
      (SaveCoreLocal st m).2.gicd_regs.ipriorityr i = 0xFFFFFFFF) := by
  rw [SaveCoreLocal_eq]
  refine ⟨fun i => rfl, fun i => rfl, ?_⟩
  intro i hi
  simp [savedSnapshot, regsAfterSave, noOffset, hi]

/-- C7 (amended) at priority word 3 of the sample machine. -/
theorem C7_SaveCoreLocal_targets_config_unmodified_witness :
    (3 < LocalState.size.ipriorityr) ∧
    ((SaveCoreLocal sampleSnapshot sampleMachine).1.ipriorityr 3
        = sampleMachine.gicd_regs.ipriorityr 3 ∧
      (SaveCoreLocal sampleSnapshot sampleMachine).2.gicd_regs.ipriorityr 3 = 0xFFFFFFFF) :=
  ⟨by decide,
    (C7_SaveCoreLocal_targets_config_unmodified sampleSnapshot sampleMachine).2.2 3 (by decide)⟩

/-- C8: the snapshot produced by `SaveCoreLocal` holds at every index of its
four arrays the value the set-enable, priority, target-mask and config word of
that index had before the call; each enable word is read and then immediately
written with `0xFFFFFFFF` through the set-enable register, no clear-enable
register is written, and all local lines are enabled afterwards. -/
theorem C8_SaveCoreLocal_snapshot_and_enable (st : LocalState) (m : Machine) :
    (∀ i, i < LocalState.size.isenabler →
      (SaveCoreLocal st m).1.isenabler i = m.gicd_regs.isenabler i) ∧
    (∀ i, i < LocalState.size.ipriorityr →
      (SaveCoreLocal st m).1.ipriorityr i = m.gicd_regs.ipriorityr i) ∧
    (∀ i, i < LocalState.size.itargetsr →
      (SaveCoreLocal st m).1.itargetsr i = m.gicd_regs.itargetsr i) ∧
    (∀ i, i < LocalState.size.icfgr →
      (SaveCoreLocal st m).1.icfgr i = m.gicd_regs.icfgr i) ∧
    (SaveCoreLocal st m).2.trace = m.trace ++
      (emit LocalState.size.isenabler (fun i =>
          [Access.read (Reg.isenabler i), Access.write (Reg.isenabler i) 0xFFFFFFFF]) ++
        emit LocalState.size.ipriorityr (fun i =>
          [Access.read (Reg.ipriorityr_words i),
           Access.write (Reg.ipriorityr_words i) 0xFFFFFFFF]) ++
        emit LocalState.size.itargetsr (fun i => [Access.read (Reg.itargetsr_words i)]) ++
        emit LocalState.size.icfgr (fun i => [Access.read (Reg.icfgr i)])) ∧
    (∀ i v, Access.write (Reg.icenabler i) v ∉
      (SaveCoreLocal st m).2.trace.drop m.trace.length) ∧
    (∀ n, n < NumLocalInterrupts → (SaveCoreLocal st m).2.gicd_regs.enabled n = true) := by
  rw [SaveCoreLocal_eq]
  refine ⟨?_, ?_, ?_, ?_, ?_, ?_, ?_⟩
  · intro i hi; simp [savedSnapshot, noOffset, hi]
  · intro i hi; simp [savedSnapshot, noOffset, hi]
  · intro i hi; simp [savedSnapshot, noOffset, hi]
  · intro i hi; simp [savedSnapshot, noOffset, hi]
  · simp [saveAccesses, noOffset]
  · intro i v
    simp only [List.drop_left, saveAccesses, List.mem_append, mem_emit]
    simp
  · intro n hn
    have h0 : n / 32 = 0 := by unfold NumLocalInterrupts at hn; omega
    have h1 : n % 32 < 32 := by omega
    simp [GicDistributor.enabled, lineBit, regsAfterSave, noOffset, LocalState.size,
      NumLocalInterrupts, h0, Nat.testBit_or, testBit_ones _ h1]

/-- C8 at enable word 0 and line 9 (disabled before the save) of the sample machine. -/
theorem C8_SaveCoreLocal_snapshot_and_enable_witness :
    (0 < LocalState.size.isenabler) ∧
    (SaveCoreLocal sampleSnapshot sampleMachine).1.isenabler 0
      = sampleMachine.gicd_regs.isenabler 0 ∧
    (9 < NumLocalInterrupts) ∧
    (SaveCoreLocal sampleSnapshot sampleMachine).2.gicd_regs.enabled 9 = true :=
  ⟨by decide,
    (C8_SaveCoreLocal_snapshot_and_enable sampleSnapshot sampleMachine).1 0 (by decide),
    by decide,
    (C8_SaveCoreLocal_snapshot_and_enable sampleSnapshot sampleMachine).2.2.2.2.2.2 9
      (by decide)⟩

/-- C9: the access trace of `Initialize(core_id)` is: CPU-interface `ctlr := 0`;
distributor `ctlr := 0` only on core 0; `pmr := 0`; `bpr := 7`; the complete
line reset (the accesses `SetupInterruptLines` makes); distributor `ctlr := 1`
only on core 0; CPU-interface `ctlr := 1`; `SetGicMask(core_id)`;
`SetPriorityLevel(PriorityLevel_Low)`.  No write of 1 to either control
register occurs before the end of the line reset, and, the collaborators
leaving the control registers and the binary point alone, on return the
CPU-interface `ctlr` is 1, `bpr` is 7 and on core 0 the distributor `ctlr` is 1. -/
theorem C9_Initialize_sequence (col : Collaborators) (core_id : Int) (m : Machine) :
    (Initialize col core_id m).trace = m.trace ++
      ([Access.write Reg.gicc_ctlr 0] ++
        (if core_id = 0 then [Access.write Reg.gicd_ctlr 0] else []) ++
        [Access.write Reg.gicc_pmr 0, Access.write Reg.gicc_bpr 7] ++
        resetAccesses core_id m.gicd_regs.typer ++
        (if core_id = 0 then [Access.write Reg.gicd_ctlr 1] else []) ++
        [Access.write Reg.gicc_ctlr 1, Access.SetGicMask core_id,
         Access.SetPriorityLevel PriorityLevel.PriorityLevel_Low]) ∧
    (∀ m0 : Machine, (SetupInterruptLines core_id m0).trace =
      m0.trace ++ resetAccesses core_id m0.gicd_regs.typer) ∧
    (∀ a ∈ [Access.write Reg.gicc_ctlr 0] ++
        (if core_id = 0 then [Access.write Reg.gicd_ctlr 0] else []) ++
        [Access.write Reg.gicc_pmr 0, Access.write Reg.gicc_bpr 7] ++
        resetAccesses core_id m.gicd_regs.typer,
      a ≠ Access.write Reg.gicd_ctlr 1 ∧ a ≠ Access.write Reg.gicc_ctlr 1) ∧
    (col.KeepsControl →
      (Initialize col core_id m).gicc_regs.ctlr = 1 ∧
      (Initialize col core_id m).gicc_regs.bpr = 7 ∧
      (core_id = 0 → (Initialize col core_id m).gicd_regs.ctlr = 1)) := by
  refine ⟨Initialize_trace col core_id m, ?_, ?_, ?_⟩
  · intro m0
    rw [SetupInterruptLines_eq]
  · simp only [List.forall_mem_append]
    refine ⟨⟨⟨?_, ?_⟩, ?_⟩, ?_⟩
    · simp
    · by_cases h : core_id = 0 <;> simp [h]
    · simp
    · intro a ha
      exact ⟨(resetAccesses_no_ctlr core_id _ a ha).1 1, (resetAccesses_no_ctlr core_id _ a ha).2 1⟩
  · intro hcol
    refine ⟨?_, ?_, ?_⟩
    · simp [Initialize, Machine.callSetPriorityLevel, Machine.callSetGicMask, (hcol.2 _ _).2.2.1,
        (hcol.1 _ _).2.2.1, Machine.write, GicCpuInterface.store]
    · simp [Initialize, Machine.callSetPriorityLevel, Machine.callSetGicMask, (hcol.2 _ _).2.2.2,
        (hcol.1 _ _).2.2.2, Machine.write, GicCpuInterface.store, SetupInterruptLines_eq]
      by_cases h : core_id = 0 <;> simp [h, Machine.write, GicCpuInterface.store]
    · intro h
      simp [Initialize, h, Machine.callSetPriorityLevel, Machine.callSetGicMask, (hcol.2 _ _).1,
        (hcol.1 _ _).1, Machine.write, GicDistributor.store]

/-- C9 on the sample machine, core 0, with the sample collaborators. -/
theorem C9_Initialize_sequence_witness :
    sampleCollaborators.KeepsControl ∧
    ((Initialize sampleCollaborators 0 sampleMachine).gicc_regs.ctlr = 1 ∧
      (Initialize sampleCollaborators 0 sampleMachine).gicc_regs.bpr = 7 ∧
      ((0 : Int) = 0 → (Initialize sampleCollaborators 0 sampleMachine).gicd_regs.ctlr = 1)) :=
  ⟨sampleCollaborators_keepsControl,
    (C9_Initialize_sequence sampleCollaborators 0 sampleMachine).2.2.2
      sampleCollaborators_keepsControl⟩

/-- C10: from every `Active` driver state, the collaborators leaving the
control registers and `typer` alone, after `Finalize(core_id)` both
register-block pointers are null, the CPU-interface `ctlr` is 0, the
distributor `ctlr` is 0 on core 0, and every line in the reset scope of
`core_id` has priority `0xFF`, target mask `0x00` and config 0. -/
theorem C10_Finalize_postcondition (col : Collaborators) (hcol : col.KeepsControl)
    (core_id : Int) (m : Machine) (_hm : m.Active) :
    (Finalize col core_id m).gicd = 0 ∧
    (Finalize col core_id m).gicc = 0 ∧
    (Finalize col core_id m).gicc_regs.ctlr = 0 ∧
    (core_id = 0 → (Finalize col core_id m).gicd_regs.ctlr = 0) ∧
    (∀ n, n < (if core_id = 0 then 32 * ((m.gicd_regs.typer &&& 0x1F) + 1)
               else NumLocalInterrupts) →
      (Finalize col core_id m).gicd_regs.ipriorityr_bytes n = 0xFF ∧
      (Finalize col core_id m).gicd_regs.itargetsr_bytes n = 0x00 ∧
      (Finalize col core_id m).gicd_regs.config n = 0) := by
  refine ⟨rfl, rfl, ?_, ?_, ?_⟩
  · simp [Finalize, SetupInterruptLines_eq, Machine.callSetPriorityLevel, (hcol.2 _ _).2.2.1,
      Machine.write, GicCpuInterface.store]
  · intro h
    simp [Finalize, h, SetupInterruptLines_eq, resetRegs, Machine.callSetPriorityLevel,
      (hcol.2 _ _).1, Machine.write, GicDistributor.store]
  · intro n hn
    have ht := finalizeTyper_eq col hcol core_id m
    have h := setup_resets_line core_id
      (((if core_id = 0 then m.write Reg.gicd_ctlr 0 else m).write
        Reg.gicc_ctlr 0).callSetPriorityLevel col PriorityLevel.PriorityLevel_High) n
      (by rw [show (((if core_id = 0 then m.write Reg.gicd_ctlr 0 else m).write
            Reg.gicc_ctlr 0).callSetPriorityLevel col
              PriorityLevel.PriorityLevel_High).gicd_regs.typer
            = finalizeTyper col core_id m from rfl, ht]
          exact hn)
    exact ⟨h.2.2.2.2.1, h.2.2.2.2.2.1, h.2.2.2.2.2.2⟩

/-- C10 on the sample machine, core 0, line 40, with the sample collaborators. -/
theorem C10_Finalize_postcondition_witness :
    sampleCollaborators.KeepsControl ∧ sampleMachine.Active ∧
    (Finalize sampleCollaborators 0 sampleMachine).gicd = 0 ∧
    (Finalize sampleCollaborators 0 sampleMachine).gicc = 0 ∧
    (40 < (if (0 : Int) = 0 then 32 * ((sampleMachine.gicd_regs.typer &&& 0x1F) + 1)
           else NumLocalInterrupts)) ∧
    ((Finalize sampleCollaborators 0 sampleMachine).gicd_regs.ipriorityr_bytes 40 = 0xFF ∧
      (Finalize sampleCollaborators 0 sampleMachine).gicd_regs.itargetsr_bytes 40 = 0x00 ∧
      (Finalize sampleCollaborators 0 sampleMachine).gicd_regs.config 40 = 0) :=
  ⟨sampleCollaborators_keepsControl, sampleMachine_active,
    (C10_Finalize_postcondition sampleCollaborators sampleCollaborators_keepsControl 0
      sampleMachine sampleMachine_active).1,
    (C10_Finalize_postcondition sampleCollaborators sampleCollaborators_keepsControl 0
      sampleMachine sampleMachine_active).2.1,
    by decide,
    (C10_Finalize_postcondition sampleCollaborators sampleCollaborators_keepsControl 0
      sampleMachine sampleMachine_active).2.2.2.2 40 (by decide)⟩

/-- C12: on core 0 the line count used by the reset is `32 * (field + 1)` with
`field = typer & 0x1F`, a multiple of 32 between 32 and 1024, for every value of
`typer`; on every other core it is `NumLocalInterrupts`, whatever `typer` holds. -/
theorem C12_line_count (core_id : Int) (m : Machine) :
    (ITLines 0 m).1 = 32 * ((m.gicd_regs.typer &&& 0x1F) + 1) ∧
    32 ∣ (ITLines 0 m).1 ∧
    32 ≤ (ITLines 0 m).1 ∧
    (ITLines 0 m).1 ≤ 1024 ∧
    (core_id ≠ 0 → (ITLines core_id m).1 = NumLocalInterrupts) := by
  have h : m.gicd_regs.typer &&& 0x1F ≤ 0x1F := Nat.and_le_right
  have h0 : (ITLines 0 m).1 = 32 * ((m.gicd_regs.typer &&& 0x1F) + 1) := by
    simp [ITLines, Machine.read, Machine.load]
  refine ⟨h0, ?_, ?_, ?_, ?_⟩
  · rw [h0]; exact Dvd.intro _ rfl
  · rw [h0]; omega
  · rw [h0]; omega
  · intro hc
    simp [ITLines, hc]

/-- C12 on the sample machine, whose `typer` is `0xFC21`: core 1 resets
`NumLocalInterrupts` lines. -/
theorem C12_line_count_witness :
    ((1 : Int) ≠ 0) ∧ (ITLines 1 sampleMachine).1 = NumLocalInterrupts :=
  ⟨by decide, (C12_line_count 1 sampleMachine).2.2.2.2 (by decide)⟩

/-- C13: the accesses of `SetupInterruptLines` are, in order, the read of
`typer` (core 0 only), then for each 32-line group the clear-enable,
clear-pending, clear-active and group writes, then for each line the priority
and target-mask byte writes, then the config writes; so every clear-enable,
clear-pending and clear-active write precedes every priority or target-mask
write, and every priority or target-mask write precedes every config write. -/
theorem C13_reset_write_order (core_id : Int) (m : Machine) :
    (SetupInterruptLines core_id m).trace = m.trace ++
      ((if core_id = 0 then [Access.read Reg.gicd_typer] else []) ++
        (emit ((ITLines core_id m).1 / 32) (fun i =>
            [Access.write (Reg.icenabler i) 0xFFFFFFFF,
             Access.write (Reg.icpendr i) 0xFFFFFFFF,
             Access.write (Reg.icactiver i) 0xFFFFFFFF,
             Access.write (Reg.igroupr i) 0]) ++
          emit (ITLines core_id m).1 (fun i =>
            [Access.write (Reg.ipriorityr_bytes i) 0xFF,
             Access.write (Reg.itargetsr_bytes i) 0x00]) ++
          emit ((ITLines core_id m).1 / 16) (fun i => [Access.write (Reg.icfgr i) 0]))) ∧
    ((SetupInterruptLines core_id m).trace.drop m.trace.length).Pairwise
      (fun a b => resetPhase a ≤ resetPhase b) := by
  rw [SetupInterruptLines_eq, ITLines_fst]
  simp only [List.drop_left]
  exact ⟨rfl, resetAccesses_phases core_id _⟩

/-- C17: every index written by `SetupInterruptLines` is in range, for every
`typer` and every `core_id`: below 32 for the clear-enable, clear-pending,
clear-active and group words, below 1024 for the priority and target-mask
bytes, below 64 for the config words; and on core 0 with `typer & 0x1F = 31`
the priority and target-mask bytes 1020 .. 1023 are written. -/
theorem C17_reset_index_bounds (core_id : Int) (m : Machine) :
    (∀ a ∈ (SetupInterruptLines core_id m).trace.drop m.trace.length,
      a.isWrite = true → a.onReg Reg.resetIndexInRange = true) ∧
    (m.gicd_regs.typer &&& 0x1F = 31 →
      ∀ n, 1020 ≤ n → n ≤ 1023 →
        Access.write (Reg.ipriorityr_bytes n) 0xFF ∈
          (SetupInterruptLines 0 m).trace.drop m.trace.length ∧
        Access.write (Reg.itargetsr_bytes n) 0x00 ∈
          (SetupInterruptLines 0 m).trace.drop m.trace.length) := by
  constructor
  · rw [SetupInterruptLines_eq]
    simp only [List.drop_left, resetAccesses, List.forall_mem_append]
    refine ⟨?_, fun a ha _ =>
      (resetWrites_in_range _ (lineCount_le core_id m.gicd_regs.typer) a ha).2⟩
    by_cases h : core_id = 0 <;> simp [h, Access.isWrite]
  · intro ht n h1 h2
    rw [SetupInterruptLines_eq]
    simp only [List.drop_left]
    have hc : lineCount 0 m.gicd_regs.typer = 32 * 32 := by
      simp [lineCount, ht]
    have hcov := resetWrites_cover 32 n (by omega)
    simp only [resetAccesses, hc, List.mem_append]
    exact ⟨Or.inr hcov.2.2.2.2.1, Or.inr hcov.2.2.2.2.2.1⟩

/-- C17 on the sample machine with `typer = 0xFC3F`: byte 1023 is written. -/
theorem C17_reset_index_bounds_witness :
    (sampleMachine1024.gicd_regs.typer &&& 0x1F = 31) ∧ (1020 ≤ 1023) ∧ (1023 ≤ 1023) ∧
    (Access.write (Reg.ipriorityr_bytes 1023) 0xFF ∈
        (SetupInterruptLines 0 sampleMachine1024).trace.drop sampleMachine1024.trace.length ∧
      Access.write (Reg.itargetsr_bytes 1023) 0x00 ∈
        (SetupInterruptLines 0 sampleMachine1024).trace.drop sampleMachine1024.trace.length) :=
  ⟨by decide, by decide, by decide,
    (C17_reset_index_bounds 0 sampleMachine1024).2 (by decide) 1023 (by decide) (by decide)⟩

/-- C11, as stated, fails: the sample distributor with `typer = 0xFC22` has 96
lines while snapshot arrays of the lengths `sizes64` assume 64, yet
`Initialize(0)` runs to its last step (the trace ends with the CPU-interface
enable and the two collaborator calls, and both control registers hold 1), and
`SaveGlobal` reads no register of line 64, which lies in the configured global
range: priority word 16, target word 16, enable word 2 and config word 4 are
not read. -/
theorem C11_counterexample :
    32 * ((sampleMachine96.gicd_regs.typer &&& 0x1F) + 1) = 96 ∧
    assumedLineCount sizes64 = 64 ∧
    (∃ t, (Initialize sampleCollaborators 0 sampleMachine96).trace =
      t ++ [Access.write Reg.gicc_ctlr 1, Access.SetGicMask 0,
            Access.SetPriorityLevel PriorityLevel.PriorityLevel_Low]) ∧
    (Initialize sampleCollaborators 0 sampleMachine96).gicc_regs.ctlr = 1 ∧
    (Initialize sampleCollaborators 0 sampleMachine96).gicd_regs.ctlr = 1 ∧
    Access.read (Reg.isenabler 2) ∉ (SaveGlobal sizes64 sampleSnapshot sampleMachine96).2.trace ∧
    Access.read (Reg.ipriorityr_words 16) ∉
      (SaveGlobal sizes64 sampleSnapshot sampleMachine96).2.trace ∧
    Access.read (Reg.itargetsr_words 16) ∉
      (SaveGlobal sizes64 sampleSnapshot sampleMachine96).2.trace ∧
    Access.read (Reg.icfgr 4) ∉ (SaveGlobal sizes64 sampleSnapshot sampleMachine96).2.trace := by
  refine ⟨by decide, by decide, ?_, by decide, by decide, by decide, by decide, by decide,
    by decide⟩
  rw [Initialize_trace]
  exact ⟨_, (List.append_assoc _ _ _).symm⟩

/-- C11, amended: the driver has no configuration check.  `Initialize(0)`
performs the same complete sequence of accesses for every value of `typer`,
ending with the CPU-interface enable and the two collaborator calls; and
`SaveGlobal` reads exactly the words its arrays have room for (entry `i` at
register index `i` plus the `LocalState` length), whatever `typer` holds, so
the words of lines beyond the arrays are not captured. -/
theorem C11_no_configuration_check (col : Collaborators) (gsz : ArraySizes)
    (st : GlobalState) (m : Machine) :
    (Initialize col 0 m).trace = m.trace ++
      ([Access.write Reg.gicc_ctlr 0, Access.write Reg.gicd_ctlr 0,
        Access.write Reg.gicc_pmr 0, Access.write Reg.gicc_bpr 7] ++
        resetAccesses 0 m.gicd_regs.typer ++
        [Access.write Reg.gicd_ctlr 1, Access.write Reg.gicc_ctlr 1, Access.SetGicMask 0,
         Access.SetPriorityLevel PriorityLevel.PriorityLevel_Low]) ∧
    (∀ j, (Access.read (Reg.isenabler j) ∈ (SaveGlobal gsz st m).2.trace.drop m.trace.length ↔
        LocalState.size.isenabler ≤ j ∧ j < LocalState.size.isenabler + gsz.isenabler) ∧
      (Access.read (Reg.ipriorityr_words j) ∈
          (SaveGlobal gsz st m).2.trace.drop m.trace.length ↔
        LocalState.size.ipriorityr ≤ j ∧ j < LocalState.size.ipriorityr + gsz.ipriorityr) ∧
      (Access.read (Reg.itargetsr_words j) ∈
          (SaveGlobal gsz st m).2.trace.drop m.trace.length ↔
        LocalState.size.itargetsr ≤ j ∧ j < LocalState.size.itargetsr + gsz.itargetsr) ∧
      (Access.read (Reg.icfgr j) ∈ (SaveGlobal gsz st m).2.trace.drop m.trace.length ↔
        LocalState.size.icfgr ≤ j ∧ j < LocalState.size.icfgr + gsz.icfgr)) := by
  constructor
  · rw [Initialize_trace]
    simp
  · intro j
    rw [SaveGlobal_eq]
    simp only [List.drop_left]
    exact saveAccesses_reads LocalState.size gsz j



/-- C14, as stated, fails on core 0: on the sample machine the first access of
`Finalize(0)` is the write disabling the distributor control register, and the
write disabling the CPU-interface control register is the second. -/
theorem C14_counterexample :
    ((Finalize sampleCollaborators 0 sampleMachine).trace.drop
        sampleMachine.trace.length).head? = some (Access.write Reg.gicd_ctlr 0) ∧
    ((Finalize sampleCollaborators 0 sampleMachine).trace.drop
        sampleMachine.trace.length).head? ≠ some (Access.write Reg.gicc_ctlr 0) ∧
    ((Finalize sampleCollaborators 0 sampleMachine).trace.drop
        sampleMachine.trace.length).take 2 =
      [Access.write Reg.gicd_ctlr 0, Access.write Reg.gicc_ctlr 0] := by
  rw [Finalize_trace]
  simp only [List.drop_left]
  refine ⟨rfl, ?_, rfl⟩
  simp

/-- C14, amended: the accesses of `Finalize(core_id)` are, in order, the write
disabling the distributor control register (only when `core_id == 0`), then
the write disabling the CPU-interface control register, then the
`SetPriorityLevel(PriorityLevel_High)` step, then the accesses of the line
reset; both pointers are still held at the end of the line reset and are
released after it. -/
theorem C14_Finalize_order (col : Collaborators) (core_id : Int) (m : Machine) :
    (Finalize col core_id m).trace = m.trace ++
      ((if core_id = 0 then [Access.write Reg.gicd_ctlr 0] else []) ++
        [Access.write Reg.gicc_ctlr 0,
         Access.SetPriorityLevel PriorityLevel.PriorityLevel_High] ++
        resetAccesses core_id (finalizeTyper col core_id m)) ∧
    (∀ m0 : Machine, (SetupInterruptLines core_id m0).trace =
      m0.trace ++ resetAccesses core_id m0.gicd_regs.typer) ∧
    (col.KeepsControl → finalizeTyper col core_id m = m.gicd_regs.typer) ∧
    (SetupInterruptLines core_id
      (((if core_id = 0 then m.write Reg.gicd_ctlr 0 else m).write
        Reg.gicc_ctlr 0).callSetPriorityLevel col PriorityLevel.PriorityLevel_High)).gicd
      = m.gicd ∧
    (SetupInterruptLines core_id
      (((if core_id = 0 then m.write Reg.gicd_ctlr 0 else m).write
        Reg.gicc_ctlr 0).callSetPriorityLevel col PriorityLevel.PriorityLevel_High)).gicc
      = m.gicc ∧
    Finalize col core_id m =
      { SetupInterruptLines core_id
          (((if core_id = 0 then m.write Reg.gicd_ctlr 0 else m).write
            Reg.gicc_ctlr 0).callSetPriorityLevel col PriorityLevel.PriorityLevel_High) with
        gicd := 0, gicc := 0 } := by
  refine ⟨Finalize_trace col core_id m, ?_, fun hcol => finalizeTyper_eq col hcol core_id m,
    ?_, ?_, rfl⟩
  · intro m0
    rw [SetupInterruptLines_eq]
  · rw [SetupInterruptLines_eq]
    by_cases h : core_id = 0 <;> simp [h, Machine.write, Machine.callSetPriorityLevel]
  · rw [SetupInterruptLines_eq]
    by_cases h : core_id = 0 <;> simp [h, Machine.write, Machine.callSetPriorityLevel]

/-- C14 (amended) with the sample collaborators on the sample machine: the
line reset inside `Finalize(0)` sees the `typer` value of the initial state. -/
theorem C14_Finalize_order_witness :
    sampleCollaborators.KeepsControl ∧
    finalizeTyper sampleCollaborators 0 sampleMachine = sampleMachine.gicd_regs.typer :=
  ⟨sampleCollaborators_keepsControl,
    (C14_Finalize_order sampleCollaborators 0 sampleMachine).2.2.1
      sampleCollaborators_keepsControl⟩

/-- C15: `SaveGlobal` and `RestoreGlobal` are the save and restore algorithm of
the core-local functions with shifted indices: `genericSave` and
`genericRestore`, instantiated with offset 0 and the `LocalState` lengths, are
`SaveCoreLocal` and `RestoreCoreLocal`; instantiated with the `LocalState`
lengths as offsets and the `GlobalState` lengths as lengths they are
`SaveGlobal` and `RestoreGlobal`; and both instances make the same accesses per
field in the same field order, including the all-ones write-back to the
set-enable and the priority words on save. -/
theorem C15_global_is_shifted_local (gsz : ArraySizes) (st : SavedState) (m : Machine) :
    SaveCoreLocal st m = genericSave noOffset LocalState.size st m ∧
    RestoreCoreLocal st m = genericRestore noOffset LocalState.size st m ∧
    SaveGlobal gsz st m = genericSave LocalState.size gsz st m ∧
    RestoreGlobal gsz st m = genericRestore LocalState.size gsz st m ∧
    (∀ off sz : ArraySizes, (genericSave off sz st m).2.trace = m.trace ++
      (emit sz.isenabler (fun i =>
          [Access.read (Reg.isenabler (i + off.isenabler)),
           Access.write (Reg.isenabler (i + off.isenabler)) 0xFFFFFFFF]) ++
        emit sz.ipriorityr (fun i =>
          [Access.read (Reg.ipriorityr_words (i + off.ipriorityr)),
           Access.write (Reg.ipriorityr_words (i + off.ipriorityr)) 0xFFFFFFFF]) ++
        emit sz.itargetsr (fun i => [Access.read (Reg.itargetsr_words (i + off.itargetsr))]) ++
        emit sz.icfgr (fun i => [Access.read (Reg.icfgr (i + off.icfgr))]))) ∧
    (∀ off sz : ArraySizes, (genericRestore off sz st m).trace = m.trace ++
      (emit sz.ipriorityr (fun i =>
          [Access.write (Reg.ipriorityr_words (i + off.ipriorityr)) (st.ipriorityr i)]) ++
        emit sz.itargetsr (fun i =>
          [Access.write (Reg.itargetsr_words (i + off.itargetsr)) (st.itargetsr i)]) ++
        emit sz.icfgr (fun i => [Access.write (Reg.icfgr (i + off.icfgr)) (st.icfgr i)]) ++
        emit sz.isenabler (fun i =>
          [Access.write (Reg.icenabler (i + off.isenabler)) 0xFFFFFFFF,
           Access.write (Reg.isenabler (i + off.isenabler)) (st.isenabler i)]))) := by
  refine ⟨rfl, rfl, rfl, rfl, ?_, ?_⟩
  · intro off sz
    have h : genericSave off sz st m = _ := save_loops_eq off sz st m
    rw [h]
    rfl
  · intro off sz
    have h : genericRestore off sz st m = _ := restore_loops_eq off sz st m
    rw [h]
    rfl

/-- C16: two `SaveCoreLocal` calls in a row, with no restore in between: the
second snapshot has all 32 bits set in every enable word (the word is
`0xFFFFFFFF` whenever the original register held a 32-bit value) and holds
`0xFFFFFFFF` in every priority word, whatever the original state, while its
target-mask and config words are the original ones; `RestoreCoreLocal` from the
second snapshot therefore leaves `0xFFFFFFFF` in every local enable and
priority word, which differs from every original word that was not
`0xFFFFFFFF`. -/
theorem C16_double_save_loses_state (st1 st2 : LocalState) (m : Machine) :
    (∀ i, i < LocalState.size.isenabler → ∀ k, k < 32 →
      ((SaveCoreLocal st2 (SaveCoreLocal st1 m).2).1.isenabler i).testBit k = true) ∧
    (∀ i, i < LocalState.size.isenabler → m.gicd_regs.isenabler i < 2 ^ 32 →
      (SaveCoreLocal st2 (SaveCoreLocal st1 m).2).1.isenabler i = 0xFFFFFFFF) ∧
    (∀ i, i < LocalState.size.ipriorityr →
      (SaveCoreLocal st2 (SaveCoreLocal st1 m).2).1.ipriorityr i = 0xFFFFFFFF) ∧
    (∀ i, i < LocalState.size.itargetsr →
      (SaveCoreLocal st2 (SaveCoreLocal st1 m).2).1.itargetsr i = m.gicd_regs.itargetsr i) ∧
    (∀ i, i < LocalState.size.icfgr →
      (SaveCoreLocal st2 (SaveCoreLocal st1 m).2).1.icfgr i = m.gicd_regs.icfgr i) ∧
    (∀ i, i < LocalState.size.isenabler → m.gicd_regs.isenabler i < 2 ^ 32 →
      (RestoreCoreLocal (SaveCoreLocal st2 (SaveCoreLocal st1 m).2).1
        (SaveCoreLocal st2 (SaveCoreLocal st1 m).2).2).gicd_regs.isenabler i = 0xFFFFFFFF) ∧
    (∀ i, i < LocalState.size.ipriorityr →
      (RestoreCoreLocal (SaveCoreLocal st2 (SaveCoreLocal st1 m).2).1
        (SaveCoreLocal st2 (SaveCoreLocal st1 m).2).2).gicd_regs.ipriorityr i = 0xFFFFFFFF) := by
  simp only [SaveCoreLocal_eq, RestoreCoreLocal_eq]
  refine ⟨?_, ?_, ?_, ?_, ?_, ?_, ?_⟩
  · intro i hi k hk
    simp [savedSnapshot, regsAfterSave, noOffset, hi, Nat.testBit_or, testBit_ones k hk]
  · intro i hi h32
    simp [savedSnapshot, regsAfterSave, noOffset, hi, or_ones _ h32]
  · intro i hi
    simp [savedSnapshot, regsAfterSave, noOffset, hi]
  · intro i hi
    simp [savedSnapshot, regsAfterSave, noOffset, hi]
  · intro i hi
    simp [savedSnapshot, regsAfterSave, noOffset, hi]
  · intro i hi h32
    simp [savedSnapshot, regsAfterSave, regsAfterRestore, noOffset, hi, or_ones _ h32]
  · intro i hi
    simp [savedSnapshot, regsAfterSave, regsAfterRestore, noOffset, hi]

/-- C16 on the sample machine: enable word 0 held `0x0F0F00FF` and priority
word 0 held `0xA0B0C0D0`; after two saves and a restore from the second
snapshot both hold `0xFFFFFFFF`. -/
theorem C16_double_save_loses_state_witness :
    (0 < LocalState.size.isenabler) ∧ (0 < LocalState.size.ipriorityr) ∧
    sampleMachine.gicd_regs.isenabler 0 < 2 ^ 32 ∧
    sampleMachine.gicd_regs.isenabler 0 = 0x0F0F00FF ∧
    sampleMachine.gicd_regs.ipriorityr 0 = 0xA0B0C0D0 ∧
    (RestoreCoreLocal (SaveCoreLocal sampleSnapshot (SaveCoreLocal sampleSnapshot sampleMachine).2).1
      (SaveCoreLocal sampleSnapshot (SaveCoreLocal sampleSnapshot sampleMachine).2).2
      ).gicd_regs.isenabler 0 = 0xFFFFFFFF ∧
    (RestoreCoreLocal (SaveCoreLocal sampleSnapshot (SaveCoreLocal sampleSnapshot sampleMachine).2).1
      (SaveCoreLocal sampleSnapshot (SaveCoreLocal sampleSnapshot sampleMachine).2).2
      ).gicd_regs.ipriorityr 0 = 0xFFFFFFFF :=
  ⟨by decide, by decide, by decide, by decide, by decide,
    (C16_double_save_loses_state sampleSnapshot sampleSnapshot sampleMachine).2.2.2.2.2.1
      0 (by decide) (by decide),
    (C16_double_save_loses_state sampleSnapshot sampleSnapshot sampleMachine).2.2.2.2.2.2
      0 (by decide)⟩

end ams.kern.arch.arm64
